import Mathlib

/-!
AirPuffer: the control loop of `src/main.cpp`.

A shallow embedding of the Arduino sketch.  The globals of the sketch form the
record `State`; one execution of `loop()` is the function `loop`, which takes
the values the pass reads from the outside world (`PassInput`) and returns the
new globals together with the list of output operations it performed, in
program order.

Machine integers:
* `unsigned long` (the `millis()` timers) is a `Nat` below `2 ^ 32`; every sum
  the sketch forms on that type is reduced modulo `2 ^ 32` (`addU32`);
* `uint8_t puffsSoFar` is a `Nat`, its `++` reduced modulo `256`;
* `int` (distances and thresholds) is `Int`; the values stored there are the
  10-bit potentiometer reading and the `uint16_t` range in millimetres, which
  the sensor reports below 8192 and which is stored unchanged; the only
  arithmetic on them is `/ 2`, which is `Int.tdiv` (truncation toward zero).

`loop` takes the value `checkSwitch` returned as an input; `checkSwitch` itself
is embedded separately, on the sequence of levels the pin shows, with a bound
on the sampling rounds since its loop need not end.  `Serial` output is kept
only as the zone label the range step prints.
-/

set_option maxRecDepth 8192

namespace AirPuffer

/-! ## Constants of the sketch -/

/-- The `colorEnum` of the sketch. -/
inductive colorEnum where
  | RED
  | GREEN
  | BLUE
  deriving DecidableEq, Repr

def SWITCH_PRESSED : Nat := 0
def SWITCH_UNPRESSED : Nat := 1
def RELAY_ON : Nat := 0
def RELAY_OFF : Nat := 1

def BUZZER : Nat := 2
def DISARM_AIR_SWITCH : Nat := 3
def LED_R : Nat := 9
def LED_G : Nat := 10
def LED_B : Nat := 11
def AIR_RELAY : Nat := 5

def MAX_PUFFS : Nat := 15
def PUFF_LOCKOUT_TIME : Nat := 5000
def puffLength : Nat := 100

def CHECK_INTERVAL : Nat := 100
def OUT_OF_AIR_FLASH_INTERVAL : Nat := 1000
def WARNING_BUZZ_DURATION : Nat := 1000
def FLASH_ON_TIME : Nat := 200
def ARMED_DISARMED_FLASH_INTERVAL : Nat := 1000

/-- Number of values of an `unsigned long` on the target (32 bits). -/
def ULONG : Nat := 2 ^ 32

/-- Addition on `unsigned long`, as in `lastCheck+CHECK_INTERVAL`. -/
def addU32 (a b : Nat) : Nat := (a + b) % ULONG

/-- The label the range check prints, with `Far` for the fall-through of the
`if / else if` chain (nothing printed). -/
inductive Zone where
  | Far
  | Medium
  | Near
  deriving DecidableEq, Repr

/-- Output operations of the sketch, in the order a pass issues them. -/
inductive Event where
  | digitalWrite (pin : Nat) (val : Nat)
  | analogWrite (pin : Nat) (val : Nat)
  | delay (ms : Nat)
  | rangingTest
  | serialZone (z : Zone) (d : Int)
  deriving DecidableEq, Repr

/-- The global variables of the sketch that `loop()` reads or writes. -/
structure State where
  distanceToObject : Int
  airArmed : Bool
  outOfAir : Bool
  puffsSoFar : Nat
  lastCheck : Nat
  outOfAirFlasherLastCheck : Nat
  lastFlashTime : Nat
  lastPuffTime : Nat
  deriving DecidableEq, Repr

/-- Everything one pass of `loop()` reads from outside.  The `t...` fields are
the values `millis()` returns at its eight call sites, in program order; a
field whose call site is not reached in a pass is not looked at.
`RangeStatus` and `RangeMilliMeter` are what `rangingTest` leaves in
`measureLaserRange`; they are looked at only when the query is made. -/
structure PassInput where
  switchState : Bool
  pot : Int
  RangeStatus : Nat
  RangeMilliMeter : Nat
  tCheck : Nat
  tChecked : Nat
  tLockout : Nat
  tPuffed : Nat
  tStatus : Nat
  tStatusDone : Nat
  tBlue : Nat
  tBlueDone : Nat
  deriving DecidableEq, Repr

/-- The globals after their initialisers have run: the four timers hold the
`millis()` values read at start-up. -/
def powerOn (t0 t1 t2 t3 : Nat) : State :=
  { distanceToObject := 5000
    airArmed := false
    outOfAir := false
    puffsSoFar := 0
    lastCheck := t0
    outOfAirFlasherLastCheck := t1
    lastFlashTime := t2
    lastPuffTime := t3 }

/-! ## `flashLED` -/

/-- The routine `flashLED(color, brightness, howLong)`: the three channel
writes for the colour, the hold, then all three channels to zero. -/
def flashLED (color : colorEnum) (brightness : Nat) (howLong : Nat) : List Event :=
  (match color with
    | colorEnum.RED =>
      [Event.analogWrite LED_R brightness, Event.analogWrite LED_G 0, Event.analogWrite LED_B 0]
    | colorEnum.GREEN =>
      [Event.analogWrite LED_R 0, Event.analogWrite LED_G brightness, Event.analogWrite LED_B 0]
    | colorEnum.BLUE =>
      [Event.analogWrite LED_R 0, Event.analogWrite LED_G 0, Event.analogWrite LED_B brightness])
  ++ [Event.delay howLong,
      Event.analogWrite LED_R 0, Event.analogWrite LED_G 0, Event.analogWrite LED_B 0]

/-! ## The steps of `loop()` -/

/-- Lines 117-121: `airArmed` from the value `checkSwitch` returned. -/
def armStep (s : State) (sw : Bool) : State :=
  if (if sw then 1 else 0) = SWITCH_PRESSED then { s with airArmed := false }
  else { s with airArmed := true }

/-- Line 125: `mediumAlarmDist = analogRead(A0)`. -/
def mediumAlarmDist (pot : Int) : Int := pot

/-- Line 126: `nearAlarmDist = mediumAlarmDist/2`. -/
def nearAlarmDist (pot : Int) : Int := Int.tdiv (mediumAlarmDist pot) 2

/-- Lines 133-137: the `if / else if` chain on the fresh reading. -/
def classify (d near medium : Int) : Zone :=
  if d ≤ near then Zone.Near
  else if d ≤ medium then Zone.Medium
  else Zone.Far

/-- What lines 133-137 print for a zone. -/
def zonePrint (z : Zone) (d : Int) : List Event :=
  match z with
  | Zone.Far => []
  | z => [Event.serialZone z d]

/-- Line 129: the test guarding the range query. -/
def queryDue (s : State) (i : PassInput) : Bool :=
  decide (i.tCheck ≥ addU32 s.lastCheck CHECK_INTERVAL)

/-- Lines 129-140: the periodic range query. -/
def sampleStep (s : State) (i : PassInput) : State × List Event :=
  if queryDue s i then
    if i.RangeStatus ≠ 4 then
      let d : Int := (i.RangeMilliMeter : Int)
      ({ s with distanceToObject := d, lastCheck := i.tChecked },
        Event.rangingTest ::
          zonePrint (classify d (nearAlarmDist i.pot) (mediumAlarmDist i.pot)) d)
    else
      ({ s with lastCheck := i.tChecked }, [Event.rangingTest])
  else (s, [])

/-- Lines 143-147: the warning buzzer. -/
def buzzStep (s : State) (i : PassInput) : List Event :=
  if s.distanceToObject ≤ mediumAlarmDist i.pot then
    [Event.digitalWrite BUZZER 1, Event.delay WARNING_BUZZ_DURATION, Event.digitalWrite BUZZER 0]
  else []

/-- Lines 150-151: the two nested conditions under which the air is puffed. -/
def puffDue (s : State) (i : PassInput) : Bool :=
  (s.airArmed && decide (s.distanceToObject ≤ nearAlarmDist i.pot)) &&
    (decide (s.puffsSoFar < MAX_PUFFS) &&
      decide (i.tLockout > addU32 s.lastPuffTime PUFF_LOCKOUT_TIME))

/-- Lines 150-166: the air puff with its counter and lockout timer. -/
def puffStep (s : State) (i : PassInput) : State × List Event :=
  if puffDue s i then
    let n := (s.puffsSoFar + 1) % 256
    ({ s with lastPuffTime := i.tPuffed, puffsSoFar := n,
              outOfAir := if n = MAX_PUFFS then true else s.outOfAir },
      [Event.digitalWrite AIR_RELAY RELAY_ON, Event.delay puffLength,
       Event.digitalWrite AIR_RELAY RELAY_OFF])
  else (s, [])

/-- Lines 169-176: the armed / disarmed flash. -/
def statusStep (s : State) (i : PassInput) : State × List Event :=
  if (!s.outOfAir) && decide (i.tStatus ≥ addU32 s.lastFlashTime ARMED_DISARMED_FLASH_INTERVAL) then
    ({ s with lastFlashTime := i.tStatusDone },
      if s.airArmed then flashLED colorEnum.RED 128 FLASH_ON_TIME
      else flashLED colorEnum.GREEN 128 FLASH_ON_TIME)
  else (s, [])

/-- Lines 179-184: the out-of-air flash. -/
def blueStep (s : State) (i : PassInput) : State × List Event :=
  if s.outOfAir then
    if i.tBlue ≥ addU32 s.outOfAirFlasherLastCheck OUT_OF_AIR_FLASH_INTERVAL then
      ({ s with outOfAirFlasherLastCheck := i.tBlueDone },
        flashLED colorEnum.BLUE 128 FLASH_ON_TIME)
    else (s, [])
  else (s, [])

/-- The globals as they stand when the buzzer and puff decisions are taken:
after the arm step and the range step of the pass. -/
def sensed (s : State) (i : PassInput) : State :=
  (sampleStep (armStep s i.switchState) i).1

/-- One pass of `loop()`: the new globals and the outputs in program order. -/
def loop (s : State) (i : PassInput) : State × List Event :=
  let s1 := armStep s i.switchState
  let r2 := sampleStep s1 i
  let e3 := buzzStep r2.1 i
  let r4 := puffStep r2.1 i
  let r5 := statusStep r4.1 i
  let r6 := blueStep r5.1 i
  (r6.1, r2.2 ++ e3 ++ r4.2 ++ r5.2 ++ r6.2)

/-- The globals after running `loop()` once per element of `is`. -/
def run (s : State) : List PassInput → State
  | [] => s
  | i :: is => run (loop s i).1 is

/-! ## Observations on a pass -/

/-- The operation that energises the air relay. -/
def relayOn : Event := Event.digitalWrite AIR_RELAY RELAY_ON

/-- The operation that switches the buzzer on. -/
def buzzerOn : Event := Event.digitalWrite BUZZER 1

/-- Whether the pass energises the air relay. -/
def actuates (s : State) (i : PassInput) : Bool :=
  decide (relayOn ∈ (loop s i).2)

/-- Whether the pass sounds the buzzer. -/
def buzzes (s : State) (i : PassInput) : Bool :=
  decide (buzzerOn ∈ (loop s i).2)

/-- Whether the pass queries the range-finder. -/
def queries (s : State) (i : PassInput) : Bool :=
  decide (Event.rangingTest ∈ (loop s i).2)

/-- The start times of the actuations of an execution: for every pass that
energises the relay, the clock value read at the lockout check just before. -/
def puffStarts (s : State) : List PassInput → List Nat
  | [] => []
  | i :: is =>
    if actuates s i then i.tLockout :: puffStarts (loop s i).1 is
    else puffStarts (loop s i).1 is

/-- All `millis()` readings of one pass, in program order. -/
def readings (i : PassInput) : List Nat :=
  [i.tCheck, i.tChecked, i.tLockout, i.tPuffed, i.tStatus, i.tStatusDone, i.tBlue, i.tBlueDone]

/-- All `millis()` readings of an execution, in program order. -/
def clock (is : List PassInput) : List Nat :=
  is.flatMap readings

/-- The relation between the puff counter and the exhaustion flag that holds
from power-on. -/
def BudgetInv (s : State) : Prop :=
  s.puffsSoFar ≤ MAX_PUFFS ∧ (s.outOfAir = true ↔ s.puffsSoFar = MAX_PUFFS)

/-- The outputs of an execution: those of each pass, in order. -/
def trace (s : State) : List PassInput → List Event
  | [] => []
  | i :: is => (loop s i).2 ++ trace (loop s i).1 is

/-- No pass of the execution stores a fresh reading: each one either makes no
range query or gets status 4 (out of range). -/
def staleRun (s : State) : List PassInput → Bool
  | [] => true
  | i :: is => (!queries s i || decide (i.RangeStatus = 4)) && staleRun (loop s i).1 is

/-! ## The indicator -/

/-- The colour whose channel a pin drives. -/
def colourOfPin (pin : Nat) : Option colorEnum :=
  if pin = LED_R then some colorEnum.RED
  else if pin = LED_G then some colorEnum.GREEN
  else if pin = LED_B then some colorEnum.BLUE
  else none

/-- The colours switched on by a list of outputs, in order: one entry for
every write of a non-zero intensity to an indicator channel. -/
def litColours (es : List Event) : List colorEnum :=
  es.filterMap (fun e =>
    match e with
    | Event.analogWrite pin val => if val = 0 then none else colourOfPin pin
    | _ => none)

/-- The intensities of the three indicator channels. -/
structure Led where
  r : Nat
  g : Nat
  b : Nat
  deriving DecidableEq, Repr

/-- All three channels at zero, as after reset and after every flash. -/
def ledOff : Led := { r := 0, g := 0, b := 0 }

/-- The effect of one output operation on the indicator channels. -/
def ledWrite (l : Led) (e : Event) : Led :=
  match e with
  | Event.analogWrite pin val =>
    if pin = LED_R then { l with r := val }
    else if pin = LED_G then { l with g := val }
    else if pin = LED_B then { l with b := val }
    else l
  | _ => l

/-- The channels after a list of output operations. -/
def ledRun (l : Led) (es : List Event) : Led := es.foldl ledWrite l

/-- The channels after each output operation of a list, in order. -/
def ledStates (l : Led) : List Event → List Led
  | [] => []
  | e :: es => ledWrite l e :: ledStates (ledWrite l e) es

/-- At most one channel is non-zero. -/
def atMostOneLit (l : Led) : Prop :=
  (l.r = 0 ∧ l.g = 0) ∨ (l.r = 0 ∧ l.b = 0) ∨ (l.g = 0 ∧ l.b = 0)

/-- Only the channel of colour `c` may be non-zero, and it is at `v`. -/
def onlyLit (c : colorEnum) (v : Nat) : Led :=
  match c with
  | colorEnum.RED => { r := v, g := 0, b := 0 }
  | colorEnum.GREEN => { r := 0, g := v, b := 0 }
  | colorEnum.BLUE => { r := 0, g := 0, b := v }

/-! ## `checkSwitch` -/

/-- The level `HIGH` of a digital input. -/
def HIGH : Bool := true

/-- The level `LOW` of a digital input. -/
def LOW : Bool := false

/-- The local `debounceDelay` of `checkSwitch`. -/
def debounceDelay : Nat := 20

/-- The `for` loop of `checkSwitch` (lines 220-227).  `levels k` is the level
the `k`-th `digitalRead` of the call returns, `levels 0` being the read before
the loop.  `n` is the number of rounds (`delay(1)` and a read) completed so far,
`counter`, `prevState` and `state` are the locals at the loop test.  The result
is the final `state` with the total number of rounds, or `none` when `fuel`
rounds were not enough.  A change of level sets `counter` to 0 and the
increment of the `for` makes it 1. -/
def checkSwitchLoop (levels : Nat → Bool) :
    Nat → Nat → Nat → Bool → Bool → Option (Bool × Nat)
  | 0, n, counter, _, state =>
    if counter < debounceDelay then none else some (state, n)
  | fuel + 1, n, counter, prevState, state =>
    if counter < debounceDelay then
      if levels (n + 1) ≠ prevState then
        checkSwitchLoop levels fuel (n + 1) (0 + 1) (levels (n + 1)) (levels (n + 1))
      else
        checkSwitchLoop levels fuel (n + 1) (counter + 1) prevState (levels (n + 1))
    else some (state, n)

/-- The routine `checkSwitch(pin)` on the levels the pin shows: the returned
boolean and the number of sampling rounds taken, or `none` when `fuel` rounds
were not enough for it to return.  The local `state` is not set before the
loop; it is written in the first round, which always runs. -/
def checkSwitch (levels : Nat → Bool) (fuel : Nat) : Option (Bool × Nat) :=
  match checkSwitchLoop levels fuel 0 0 (levels 0) (levels 0) with
  | some (state, n) => some (if state = HIGH then true else false, n)
  | none => none

/-! ## Sample states and inputs -/

/-- A pin that reads LOW at the initial read and at the first sample, and HIGH
from the second sample on. -/
def riseAtTwo (k : Nat) : Bool := decide (2 ≤ k)

/-- A pin that changes level at every read. -/
def bouncing (k : Nat) : Bool := decide (k % 2 = 0)

/-- A pin that changes level at every read up to read `N` and keeps the level
of read `N` from then on. -/
def bounceUntil (N : Nat) (k : Nat) : Bool := decide (min k N % 2 = 0)

/-- A pin held HIGH. -/
def heldHigh (_ : Nat) : Bool := true

/-- A pin held LOW. -/
def heldLow (_ : Nat) : Bool := false


/-- A pass input with every clock reading equal to `t`. -/
def passAt (sw : Bool) (pot : Int) (status range t : Nat) : PassInput :=
  { switchState := sw, pot := pot, RangeStatus := status, RangeMilliMeter := range,
    tCheck := t, tChecked := t, tLockout := t, tPuffed := t,
    tStatus := t, tStatusDone := t, tBlue := t, tBlueDone := t }

/-- Fifteen passes 6000 ms apart, each with a fresh reading of 80 mm, the
potentiometer at 200 and the switch unpressed. -/
def fifteenPuffs : List PassInput :=
  (List.range 15).map (fun k => passAt true 200 0 80 (6000 * (k + 1)))

/-- An armed pass starting at clock `t` with a fresh reading of 80 mm and the
potentiometer at 200, its readings spaced by the delays of the sketch: 30 ms
for the range query, 1000 ms of buzzer, 100 ms of puff, 200 ms of flash. -/
def puffPass (t : Nat) : PassInput :=
  { switchState := true, pot := 200, RangeStatus := 0, RangeMilliMeter := 80,
    tCheck := t, tChecked := t + 30, tLockout := t + 1030, tPuffed := t + 1130,
    tStatus := t + 1130, tStatusDone := t + 1330, tBlue := t + 1330,
    tBlueDone := t + 1530 }

/-- Fourteen such passes, 6000 ms apart. -/
def fourteenPuffs : List PassInput :=
  (List.range 14).map (fun k => puffPass (6000 * (k + 1)))

/-- Globals well after start-up: an object held at 80 mm, no puff spent, all
timers last set at 1000 ms. -/
def held80 : State :=
  { distanceToObject := 80, airArmed := true, outOfAir := false, puffsSoFar := 0,
    lastCheck := 1000, outOfAirFlasherLastCheck := 1000, lastFlashTime := 1000,
    lastPuffTime := 1000 }

theorem mem_flashLED_analogWrite (c : colorEnum) (b h : Nat) (e : Event)
    (he : e ∈ flashLED c b h) : (∃ pin val, e = Event.analogWrite pin val) ∨ e = Event.delay h := by
  cases c <;> simp [flashLED] at he <;> rcases he with h1 | h1 | h1 | h1 | h1 | h1 | h1 <;>
    simp [h1]

theorem digitalWrite_not_mem_flashLED (c : colorEnum) (b h pin val : Nat) :
    Event.digitalWrite pin val ∉ flashLED c b h := by
  intro hm
  rcases mem_flashLED_analogWrite c b h _ hm with ⟨p, v, h1⟩ | h1 <;> cases h1

theorem rangingTest_not_mem_flashLED (c : colorEnum) (b h : Nat) :
    Event.rangingTest ∉ flashLED c b h := by
  intro hm
  rcases mem_flashLED_analogWrite c b h _ hm with ⟨p, v, h1⟩ | h1 <;> cases h1

theorem digitalWrite_not_mem_zonePrint (z : Zone) (d : Int) (pin val : Nat) :
    Event.digitalWrite pin val ∉ zonePrint z d := by
  cases z <;> simp [zonePrint]

theorem digitalWrite_not_mem_sampleStep (s : State) (i : PassInput) (pin val : Nat) :
    Event.digitalWrite pin val ∉ (sampleStep s i).2 := by
  unfold sampleStep
  split_ifs <;> simp [digitalWrite_not_mem_zonePrint]

theorem digitalWrite_not_mem_statusStep (s : State) (i : PassInput) (pin val : Nat) :
    Event.digitalWrite pin val ∉ (statusStep s i).2 := by
  unfold statusStep
  split_ifs <;> simp [digitalWrite_not_mem_flashLED]

theorem digitalWrite_not_mem_blueStep (s : State) (i : PassInput) (pin val : Nat) :
    Event.digitalWrite pin val ∉ (blueStep s i).2 := by
  unfold blueStep
  split_ifs <;> simp [digitalWrite_not_mem_flashLED]

theorem relayOn_mem_puffStep (s : State) (i : PassInput) :
    relayOn ∈ (puffStep s i).2 ↔ puffDue s i = true := by
  unfold puffStep
  split_ifs with h <;> simp [h, relayOn]

theorem relayOn_not_mem_buzzStep (s : State) (i : PassInput) :
    relayOn ∉ buzzStep s i := by
  unfold buzzStep
  split_ifs <;> simp [relayOn, BUZZER, AIR_RELAY]

theorem buzzerOn_not_mem_puffStep (s : State) (i : PassInput) :
    buzzerOn ∉ (puffStep s i).2 := by
  unfold puffStep
  split_ifs <;> simp [buzzerOn, BUZZER, AIR_RELAY]

theorem buzzerOn_mem_buzzStep (s : State) (i : PassInput) :
    buzzerOn ∈ buzzStep s i ↔ s.distanceToObject ≤ mediumAlarmDist i.pot := by
  unfold buzzStep
  split_ifs with h <;> simp [h, buzzerOn]

/-- A pass energises the relay exactly when the puff conditions hold on the
globals as sensed in that pass. -/
theorem relayOn_mem_loop (s : State) (i : PassInput) :
    relayOn ∈ (loop s i).2 ↔ puffDue (sensed s i) i = true := by
  simp only [loop, sensed, List.mem_append, relayOn_mem_puffStep]
  simp only [relayOn, digitalWrite_not_mem_sampleStep, digitalWrite_not_mem_statusStep,
    digitalWrite_not_mem_blueStep, false_or, or_false]
  have := relayOn_not_mem_buzzStep (sampleStep (armStep s i.switchState) i).1 i
  simp only [relayOn] at this
  simp [this]

/-- A pass sounds the buzzer exactly when the distance as sensed in that pass
is within the medium threshold. -/
theorem buzzerOn_mem_loop (s : State) (i : PassInput) :
    buzzerOn ∈ (loop s i).2 ↔ (sensed s i).distanceToObject ≤ mediumAlarmDist i.pot := by
  simp only [loop, sensed, List.mem_append, buzzerOn_mem_buzzStep]
  have h := buzzerOn_not_mem_puffStep (sampleStep (armStep s i.switchState) i).1 i
  simp only [buzzerOn, digitalWrite_not_mem_sampleStep, digitalWrite_not_mem_statusStep,
    digitalWrite_not_mem_blueStep, false_or, or_false] at h ⊢
  simp [h]

theorem statusStep_frame (s : State) (i : PassInput) :
    (statusStep s i).1.puffsSoFar = s.puffsSoFar ∧
    (statusStep s i).1.lastPuffTime = s.lastPuffTime ∧
    (statusStep s i).1.outOfAir = s.outOfAir ∧
    (statusStep s i).1.distanceToObject = s.distanceToObject ∧
    (statusStep s i).1.airArmed = s.airArmed ∧
    (statusStep s i).1.lastCheck = s.lastCheck := by
  unfold statusStep
  split_ifs <;> simp

theorem blueStep_frame (s : State) (i : PassInput) :
    (blueStep s i).1.puffsSoFar = s.puffsSoFar ∧
    (blueStep s i).1.lastPuffTime = s.lastPuffTime ∧
    (blueStep s i).1.outOfAir = s.outOfAir ∧
    (blueStep s i).1.distanceToObject = s.distanceToObject ∧
    (blueStep s i).1.airArmed = s.airArmed ∧
    (blueStep s i).1.lastCheck = s.lastCheck := by
  unfold blueStep
  split_ifs <;> simp

theorem sampleStep_frame (s : State) (i : PassInput) :
    (sampleStep s i).1.puffsSoFar = s.puffsSoFar ∧
    (sampleStep s i).1.lastPuffTime = s.lastPuffTime ∧
    (sampleStep s i).1.outOfAir = s.outOfAir ∧
    (sampleStep s i).1.airArmed = s.airArmed := by
  unfold sampleStep
  split_ifs <;> simp

theorem armStep_frame (s : State) (sw : Bool) :
    (armStep s sw).puffsSoFar = s.puffsSoFar ∧
    (armStep s sw).lastPuffTime = s.lastPuffTime ∧
    (armStep s sw).outOfAir = s.outOfAir ∧
    (armStep s sw).distanceToObject = s.distanceToObject ∧
    (armStep s sw).lastCheck = s.lastCheck ∧
    (armStep s sw).airArmed = sw := by
  cases sw <;> simp [armStep, SWITCH_PRESSED]

theorem puffStep_frame (s : State) (i : PassInput) :
    (puffStep s i).1.distanceToObject = s.distanceToObject ∧
    (puffStep s i).1.airArmed = s.airArmed ∧
    (puffStep s i).1.lastCheck = s.lastCheck := by
  unfold puffStep
  split_ifs <;> simp

/-- The globals as sensed: the budget, the lockout timer and the exhaustion
flag are those of the start of the pass, the arm flag is the switch level. -/
theorem sensed_frame (s : State) (i : PassInput) :
    (sensed s i).puffsSoFar = s.puffsSoFar ∧
    (sensed s i).lastPuffTime = s.lastPuffTime ∧
    (sensed s i).outOfAir = s.outOfAir ∧
    (sensed s i).airArmed = i.switchState := by
  have h1 := sampleStep_frame (armStep s i.switchState) i
  have h2 := armStep_frame s i.switchState
  simp only [sensed]
  refine ⟨?_, ?_, ?_, ?_⟩
  · rw [h1.1, h2.1]
  · rw [h1.2.1, h2.2.1]
  · rw [h1.2.2.1, h2.2.2.1]
  · rw [h1.2.2.2, h2.2.2.2.2.2]

/-- The budget, lockout timer and exhaustion flag after a pass are those the
puff step leaves. -/
theorem loop_budget (s : State) (i : PassInput) :
    (loop s i).1.puffsSoFar = (puffStep (sensed s i) i).1.puffsSoFar ∧
    (loop s i).1.lastPuffTime = (puffStep (sensed s i) i).1.lastPuffTime ∧
    (loop s i).1.outOfAir = (puffStep (sensed s i) i).1.outOfAir := by
  simp only [loop, sensed]
  refine ⟨?_, ?_, ?_⟩
  · rw [(blueStep_frame _ i).1, (statusStep_frame _ i).1]
  · rw [(blueStep_frame _ i).2.1, (statusStep_frame _ i).2.1]
  · rw [(blueStep_frame _ i).2.2.1, (statusStep_frame _ i).2.2.1]

theorem puffStep_of_not_due (s : State) (i : PassInput) (h : puffDue s i = false) :
    puffStep s i = (s, []) := by
  simp [puffStep, h]

/-- A pass that does not energise the relay leaves the budget, the lockout
timer and the exhaustion flag as they were. -/
theorem loop_budget_of_not_due (s : State) (i : PassInput)
    (h : puffDue (sensed s i) i = false) :
    (loop s i).1.puffsSoFar = s.puffsSoFar ∧
    (loop s i).1.lastPuffTime = s.lastPuffTime ∧
    (loop s i).1.outOfAir = s.outOfAir := by
  have hb := loop_budget s i
  have hs := sensed_frame s i
  rw [puffStep_of_not_due _ _ h] at hb
  exact ⟨hb.1.trans hs.1, hb.2.1.trans hs.2.1, hb.2.2.trans hs.2.2.1⟩

theorem loop_airArmed (s : State) (i : PassInput) :
    (loop s i).1.airArmed = i.switchState := by
  simp only [loop]
  rw [(blueStep_frame _ i).2.2.2.2.1, (statusStep_frame _ i).2.2.2.2.1,
    (puffStep_frame _ i).2.1]
  exact (sensed_frame s i).2.2.2

theorem actuates_iff (s : State) (i : PassInput) :
    actuates s i = true ↔ puffDue (sensed s i) i = true := by
  simp [actuates, relayOn_mem_loop]

theorem actuates_eq_false_iff (s : State) (i : PassInput) :
    actuates s i = false ↔ puffDue (sensed s i) i = false := by
  rw [← Bool.not_eq_true, ← Bool.not_eq_true, actuates_iff]

/-! ## C1: a disarmed pass -/

/-- C1: when the debounced switch level read in a pass is LOW (pressed), the
pass leaves `airArmed` false, does not energise the air relay, and leaves
`puffsSoFar`, `lastPuffTime` and `outOfAir` unchanged, whatever the state, the
clock, the potentiometer and the distance. -/
theorem C1_disarmed_pass_frame (s : State) (i : PassInput) (h : i.switchState = false) :
    (loop s i).1.airArmed = false ∧
    relayOn ∉ (loop s i).2 ∧
    (loop s i).1.puffsSoFar = s.puffsSoFar ∧
    (loop s i).1.lastPuffTime = s.lastPuffTime ∧
    (loop s i).1.outOfAir = s.outOfAir := by
  have hd : puffDue (sensed s i) i = false := by
    simp [puffDue, (sensed_frame s i).2.2.2, h]
  refine ⟨by rw [loop_airArmed, h], ?_, loop_budget_of_not_due s i hd⟩
  rw [relayOn_mem_loop, hd]
  simp

/-- C1 at an object 80 mm away, inside the near zone of a potentiometer at 200,
with the lockout long over: the pressed switch alone keeps the relay off. -/
theorem C1_disarmed_pass_frame_witness :
    (passAt false 200 0 80 9000).switchState = false ∧
    puffDue (sensed held80 (passAt true 200 0 80 9000)) (passAt true 200 0 80 9000) = true ∧
    relayOn ∉ (loop held80 (passAt false 200 0 80 9000)).2 ∧
    (loop held80 (passAt false 200 0 80 9000)).1.puffsSoFar = 0 :=
  ⟨rfl, by decide, (C1_disarmed_pass_frame held80 (passAt false 200 0 80 9000) rfl).2.1,
    (C1_disarmed_pass_frame held80 (passAt false 200 0 80 9000) rfl).2.2.1⟩

/-! ## C2: spacing of actuations -/

theorem addU32_of_lt (a b : Nat) (h : a + b < ULONG) : addU32 a b = a + b := by
  simp [addU32, Nat.mod_eq_of_lt h]

theorem lockout_of_actuates (s : State) (i : PassInput) (h : actuates s i = true) :
    addU32 s.lastPuffTime PUFF_LOCKOUT_TIME < i.tLockout := by
  rw [actuates_iff] at h
  simp only [puffDue, Bool.and_eq_true, decide_eq_true_eq] at h
  rw [(sensed_frame s i).2.1] at h
  exact h.2.2

theorem lastPuffTime_of_actuates (s : State) (i : PassInput) (h : actuates s i = true) :
    (loop s i).1.lastPuffTime = i.tPuffed := by
  rw [actuates_iff] at h
  rw [(loop_budget s i).2.1]
  simp [puffStep, h]

theorem lastPuffTime_of_not_actuates (s : State) (i : PassInput) (h : actuates s i = false) :
    (loop s i).1.lastPuffTime = s.lastPuffTime := by
  rw [actuates_eq_false_iff] at h
  exact (loop_budget_of_not_due s i h).2.1

theorem clock_cons (i : PassInput) (is : List PassInput) :
    clock (i :: is) = readings i ++ clock is := by
  simp [clock]

theorem budget_of_actuates (s : State) (i : PassInput) (h : actuates s i = true) :
    s.puffsSoFar < MAX_PUFFS ∧
    (loop s i).1.puffsSoFar = s.puffsSoFar + 1 ∧
    (loop s i).1.outOfAir = (if s.puffsSoFar + 1 = MAX_PUFFS then true else s.outOfAir) := by
  rw [actuates_iff] at h
  have hlt : s.puffsSoFar < MAX_PUFFS := by
    have h2 := h
    simp only [puffDue, Bool.and_eq_true, decide_eq_true_eq] at h2
    rw [(sensed_frame s i).1] at h2
    exact h2.2.1
  have hmod : (s.puffsSoFar + 1) % 256 = s.puffsSoFar + 1 := by
    apply Nat.mod_eq_of_lt
    simp only [MAX_PUFFS] at hlt
    omega
  refine ⟨hlt, ?_, ?_⟩
  · rw [(loop_budget s i).1]
    simp [puffStep, h, (sensed_frame s i).1, hmod]
  · rw [(loop_budget s i).2.2]
    simp [puffStep, h, (sensed_frame s i).1, (sensed_frame s i).2.2.1, hmod]

theorem budget_of_not_actuates (s : State) (i : PassInput) (h : actuates s i = false) :
    (loop s i).1.puffsSoFar = s.puffsSoFar ∧ (loop s i).1.outOfAir = s.outOfAir := by
  rw [actuates_eq_false_iff] at h
  exact ⟨(loop_budget_of_not_due s i h).1, (loop_budget_of_not_due s i h).2.2⟩

theorem puffsSoFar_loop (s : State) (i : PassInput) :
    (loop s i).1.puffsSoFar = s.puffsSoFar + (if actuates s i = true then 1 else 0) := by
  by_cases h : actuates s i = true
  · simp [h, (budget_of_actuates s i h).2.1]
  · have h : actuates s i = false := by simpa using h
    simp [h, (budget_of_not_actuates s i h).1]

theorem outOfAir_loop_of_outOfAir (s : State) (i : PassInput) (h : s.outOfAir = true) :
    (loop s i).1.outOfAir = true := by
  by_cases ha : actuates s i = true
  · rw [(budget_of_actuates s i ha).2.2, h]
    simp
  · have ha : actuates s i = false := by simpa using ha
    rw [(budget_of_not_actuates s i ha).2, h]

theorem outOfAir_run_of_outOfAir (js : List PassInput) :
    ∀ s : State, s.outOfAir = true → (run s js).outOfAir = true := by
  induction js with
  | nil => intro s h; exact h
  | cons j js ih => intro s h; exact ih _ (outOfAir_loop_of_outOfAir s j h)

theorem budgetInv_powerOn (t0 t1 t2 t3 : Nat) : BudgetInv (powerOn t0 t1 t2 t3) := by
  simp [BudgetInv, powerOn, MAX_PUFFS]

theorem budgetInv_loop (s : State) (i : PassInput) (h : BudgetInv s) :
    BudgetInv (loop s i).1 := by
  unfold BudgetInv at h ⊢
  by_cases ha : actuates s i = true
  · obtain ⟨h1, h2, h3⟩ := budget_of_actuates s i ha
    rw [h2, h3]
    refine ⟨h1, ?_⟩
    by_cases h15 : s.puffsSoFar + 1 = MAX_PUFFS
    · simp [h15]
    · have : s.puffsSoFar ≠ MAX_PUFFS := by omega
      simp [h15, h.2, this]
  · have ha : actuates s i = false := by simpa using ha
    rw [(budget_of_not_actuates s i ha).1, (budget_of_not_actuates s i ha).2]
    exact h

theorem budgetInv_run (is : List PassInput) :
    ∀ s : State, BudgetInv s → BudgetInv (run s is) := by
  induction is with
  | nil => intro s h; exact h
  | cons i is ih => intro s h; exact ih _ (budgetInv_loop s i h)

theorem puffsSoFar_run (is : List PassInput) :
    ∀ s : State, (run s is).puffsSoFar = s.puffsSoFar + (puffStarts s is).length := by
  induction is with
  | nil => intro s; rfl
  | cons i is ih =>
    intro s
    show (run (loop s i).1 is).puffsSoFar = _
    rw [ih, puffsSoFar_loop]
    by_cases h : actuates s i = true
    · simp only [puffStarts, h, if_true, List.length_cons]; omega
    · have h : actuates s i = false := by simpa using h
      simp only [puffStarts, h, Bool.false_eq_true, if_false, Nat.add_zero]

theorem not_actuates_of_budget_spent (s : State) (i : PassInput)
    (h : s.puffsSoFar = MAX_PUFFS) : actuates s i = false := by
  rw [actuates_eq_false_iff]
  simp [puffDue, (sensed_frame s i).1, h]

/-- C3: in every execution from power-on, whatever the inputs, the puff
counter is at most `MAX_PUFFS` in every reachable state, a pass never decreases
it (it adds exactly one when the pass actuates, so the 8-bit counter does not
wrap), and once `outOfAir` is true it is true after any further passes. -/
theorem C3_budget_bounded_monotone_sticky (t0 t1 t2 t3 : Nat) (is : List PassInput) :
    (run (powerOn t0 t1 t2 t3) is).puffsSoFar ≤ MAX_PUFFS ∧
    (∀ i : PassInput, (run (powerOn t0 t1 t2 t3) is).puffsSoFar ≤
      (loop (run (powerOn t0 t1 t2 t3) is) i).1.puffsSoFar) ∧
    (∀ i : PassInput, (loop (run (powerOn t0 t1 t2 t3) is) i).1.puffsSoFar =
      (run (powerOn t0 t1 t2 t3) is).puffsSoFar +
        (if actuates (run (powerOn t0 t1 t2 t3) is) i = true then 1 else 0)) ∧
    (∀ js : List PassInput, (run (powerOn t0 t1 t2 t3) is).outOfAir = true →
      (run (run (powerOn t0 t1 t2 t3) is) js).outOfAir = true) := by
  refine ⟨(budgetInv_run is _ (budgetInv_powerOn t0 t1 t2 t3)).1, fun i => ?_,
    fun i => puffsSoFar_loop _ i, fun js h => outOfAir_run_of_outOfAir js _ h⟩
  rw [puffsSoFar_loop]
  omega

/-- C3 after fifteen actuations: the counter stands at 15, `outOfAir` is set,
and three more near passes with the switch pressed or not leave it set. -/
theorem C3_budget_bounded_monotone_sticky_witness :
    (run (powerOn 0 0 0 0) fifteenPuffs).puffsSoFar = 15 ∧
    (run (powerOn 0 0 0 0) fifteenPuffs).outOfAir = true ∧
    (run (run (powerOn 0 0 0 0) fifteenPuffs)
      [passAt true 200 0 80 100000, passAt false 200 0 5000 200000,
       passAt true 1023 0 0 300000]).outOfAir = true :=
  ⟨by decide, by decide,
    (C3_budget_bounded_monotone_sticky 0 0 0 0 fifteenPuffs).2.2.2
      [passAt true 200 0 80 100000, passAt false 200 0 5000 200000,
       passAt true 1023 0 0 300000] (by decide)⟩

/-- C4: in every state reachable from power-on, `outOfAir` is true exactly
when `puffsSoFar` equals `MAX_PUFFS`; the counter equals the number of
actuations performed so far, and `outOfAir` turns from false to true exactly in
a pass that actuates with fourteen puffs already spent (the fifteenth
actuation); and from a reachable state with `outOfAir` true no pass actuates,
whatever its inputs. -/
theorem C4_outOfAir_iff_budget_spent (t0 t1 t2 t3 : Nat) (is : List PassInput) :
    ((run (powerOn t0 t1 t2 t3) is).outOfAir = true ↔
      (run (powerOn t0 t1 t2 t3) is).puffsSoFar = MAX_PUFFS) ∧
    (run (powerOn t0 t1 t2 t3) is).puffsSoFar =
      (puffStarts (powerOn t0 t1 t2 t3) is).length ∧
    (∀ i : PassInput,
      ((run (powerOn t0 t1 t2 t3) is).outOfAir = false ∧
        (loop (run (powerOn t0 t1 t2 t3) is) i).1.outOfAir = true) ↔
      (actuates (run (powerOn t0 t1 t2 t3) is) i = true ∧
        (run (powerOn t0 t1 t2 t3) is).puffsSoFar + 1 = MAX_PUFFS)) ∧
    ((run (powerOn t0 t1 t2 t3) is).outOfAir = true →
      ∀ i : PassInput, actuates (run (powerOn t0 t1 t2 t3) is) i = false) := by
  have hinv := budgetInv_run is _ (budgetInv_powerOn t0 t1 t2 t3)
  have hlen := puffsSoFar_run is (powerOn t0 t1 t2 t3)
  refine ⟨hinv.2, by simpa [powerOn] using hlen, fun i => ?_, fun h i =>
    not_actuates_of_budget_spent _ i (hinv.2.1 h)⟩
  generalize run (powerOn t0 t1 t2 t3) is = s at hinv
  by_cases ha : actuates s i = true
  · obtain ⟨h1, _, h3⟩ := budget_of_actuates s i ha
    have hne : s.puffsSoFar ≠ MAX_PUFFS := by omega
    have hf : s.outOfAir = false := by
      cases hb : s.outOfAir
      · rfl
      · exact absurd (hinv.2.1 hb) hne
    rw [h3, hf]
    by_cases h15 : s.puffsSoFar + 1 = MAX_PUFFS <;> simp [ha, h15]
  · have ha : actuates s i = false := by simpa using ha
    rw [(budget_of_not_actuates s i ha).2, ha]
    constructor
    · rintro ⟨h1, h2⟩
      rw [h1] at h2
      cases h2
    · rintro ⟨h1, _⟩
      cases h1

/-- C4 after fifteen actuations from power-on: `outOfAir` is set, and a
further pass with the object at 80 mm, the switch unpressed and the lockout
long over does not actuate. -/
theorem C4_outOfAir_iff_budget_spent_witness :
    (run (powerOn 0 0 0 0) fifteenPuffs).outOfAir = true ∧
    (puffStarts (powerOn 0 0 0 0) fifteenPuffs).length = 15 ∧
    actuates (run (powerOn 0 0 0 0) fifteenPuffs) (passAt true 200 0 80 100000) = false :=
  ⟨by decide, by decide,
    (C4_outOfAir_iff_budget_spent 0 0 0 0 fifteenPuffs).2.2.2 (by decide)
      (passAt true 200 0 80 100000)⟩

/-! ## C5: when a pass actuates -/

theorem puffDue_sensed_iff (s : State) (i : PassInput) :
    puffDue (sensed s i) i = true ↔
      (i.switchState = true ∧ (sensed s i).distanceToObject ≤ nearAlarmDist i.pot ∧
        s.puffsSoFar < MAX_PUFFS ∧ i.tLockout > addU32 s.lastPuffTime PUFF_LOCKOUT_TIME) := by
  simp only [puffDue, Bool.and_eq_true, decide_eq_true_eq, (sensed_frame s i).1,
    (sensed_frame s i).2.1, (sensed_frame s i).2.2.2]
  tauto

theorem pulse_infix_loop (s : State) (i : PassInput) (h : puffDue (sensed s i) i = true) :
    [Event.digitalWrite AIR_RELAY RELAY_ON, Event.delay puffLength,
      Event.digitalWrite AIR_RELAY RELAY_OFF] <:+: (loop s i).2 := by
  refine ⟨(sampleStep (armStep s i.switchState) i).2 ++
      buzzStep (sampleStep (armStep s i.switchState) i).1 i,
    (statusStep (puffStep (sensed s i) i).1 i).2 ++
      (blueStep (statusStep (puffStep (sensed s i) i).1 i).1 i).2, ?_⟩
  have hp : (puffStep (sensed s i) i).2 =
      [Event.digitalWrite AIR_RELAY RELAY_ON, Event.delay puffLength,
        Event.digitalWrite AIR_RELAY RELAY_OFF] := by
    simp [puffStep, h]
  simp only [loop, ← hp, sensed, List.append_assoc]

/-- C5, as it holds: a pass pulses the air relay (on, `puffLength` ms, off)
exactly when the switch level read is HIGH, the distance sensed in the pass is
at most `nearAlarmDist`, `puffsSoFar < MAX_PUFFS`, and the clock value read at
the lockout check is strictly greater than `lastPuffTime + PUFF_LOCKOUT_TIME`
(the sum formed in unsigned 32-bit arithmetic).  An actuating pass adds one to
`puffsSoFar` and sets `lastPuffTime` to the clock value read after the pulse;
any other pass leaves both unchanged; a pass whose lockout reading equals the
sum does not actuate. -/
theorem C5_actuation_iff_strict_lockout (s : State) (i : PassInput) :
    (relayOn ∈ (loop s i).2 ↔
      (i.switchState = true ∧ (sensed s i).distanceToObject ≤ nearAlarmDist i.pot ∧
        s.puffsSoFar < MAX_PUFFS ∧ i.tLockout > addU32 s.lastPuffTime PUFF_LOCKOUT_TIME)) ∧
    (relayOn ∈ (loop s i).2 →
      [Event.digitalWrite AIR_RELAY RELAY_ON, Event.delay puffLength,
        Event.digitalWrite AIR_RELAY RELAY_OFF] <:+: (loop s i).2 ∧
      (loop s i).1.puffsSoFar = s.puffsSoFar + 1 ∧
      (loop s i).1.lastPuffTime = i.tPuffed) ∧
    (relayOn ∉ (loop s i).2 →
      (loop s i).1.puffsSoFar = s.puffsSoFar ∧
      (loop s i).1.lastPuffTime = s.lastPuffTime) ∧
    (i.tLockout = addU32 s.lastPuffTime PUFF_LOCKOUT_TIME → relayOn ∉ (loop s i).2) := by
  refine ⟨by rw [relayOn_mem_loop, puffDue_sensed_iff], fun h => ?_, fun h => ?_, fun h => ?_⟩
  · have ha : actuates s i = true := by simpa [actuates] using h
    exact ⟨pulse_infix_loop s i ((relayOn_mem_loop s i).1 h),
      (budget_of_actuates s i ha).2.1, lastPuffTime_of_actuates s i ha⟩
  · have ha : actuates s i = false := by simpa [actuates] using h
    exact ⟨(budget_of_not_actuates s i ha).1, lastPuffTime_of_not_actuates s i ha⟩
  · rw [relayOn_mem_loop, puffDue_sensed_iff]
    omega

/-- C5 one millisecond after the lockout boundary: armed, 80 mm sensed with
the near threshold at 100, no puff spent, clock 6001 against `lastPuffTime`
1000: the pass actuates, counts one puff and restarts the lockout. -/
theorem C5_actuation_iff_strict_lockout_witness :
    relayOn ∈ (loop held80 (passAt true 200 0 80 6001)).2 ∧
    (loop held80 (passAt true 200 0 80 6001)).1.puffsSoFar = held80.puffsSoFar + 1 ∧
    (loop held80 (passAt true 200 0 80 6001)).1.lastPuffTime = 6001 :=
  ⟨by decide,
    ((C5_actuation_iff_strict_lockout held80 (passAt true 200 0 80 6001)).2.1 (by decide)).2⟩

/-- C5 fails as stated: armed, 80 mm sensed with the near threshold at 100, no
puff spent, and the lockout reading 6000 equal to `lastPuffTime + 5000` with
`lastPuffTime` 1000; the four stated conditions hold, yet the pass does not
energise the relay and `puffsSoFar` and `lastPuffTime` stay as they were. -/
theorem C5_counterexample_at_lockout_boundary :
    (passAt true 200 0 80 6000).switchState = true ∧
    (sensed held80 (passAt true 200 0 80 6000)).distanceToObject ≤ nearAlarmDist 200 ∧
    held80.puffsSoFar < MAX_PUFFS ∧
    (passAt true 200 0 80 6000).tLockout = held80.lastPuffTime + 5000 ∧
    (passAt true 200 0 80 6000).tLockout ≥ held80.lastPuffTime + 5000 ∧
    relayOn ∉ (loop held80 (passAt true 200 0 80 6000)).2 ∧
    (loop held80 (passAt true 200 0 80 6000)).1.puffsSoFar = held80.puffsSoFar ∧
    (loop held80 (passAt true 200 0 80 6000)).1.lastPuffTime = held80.lastPuffTime :=
  ⟨by decide, by decide, by decide, by decide, by decide, by decide, by decide, by decide⟩

/-! ## C6 and C7: thresholds and zones -/

theorem nearAlarmDist_eq_div (p : Int) (h0 : 0 ≤ p) : nearAlarmDist p = p / 2 := by
  unfold nearAlarmDist mediumAlarmDist
  exact Int.tdiv_eq_ediv h0 (by decide)

theorem sampleStep_fresh (s : State) (i : PassInput) (hq : queryDue s i = true)
    (hr : i.RangeStatus ≠ 4) :
    sampleStep s i =
      ({ s with distanceToObject := (i.RangeMilliMeter : Int), lastCheck := i.tChecked },
        Event.rangingTest ::
          zonePrint (classify (i.RangeMilliMeter : Int) (nearAlarmDist i.pot)
            (mediumAlarmDist i.pot)) (i.RangeMilliMeter : Int)) := by
  simp [sampleStep, hq, hr]

/-- C6: for a potentiometer reading `p` in `[0, 1023]`, with near threshold
`p / 2` and medium threshold `p`, the zone derived for a distance `d` is Near
exactly when `d ≤ p / 2`, Medium exactly when `p / 2 < d ≤ p`, and Far
otherwise, that is exactly when `p < d`; exactly one of the three holds; the
near test comes first, so `d ≤ near` yields Near for every medium threshold;
and on a fresh in-range reading the range step prints the label of that
zone. -/
theorem C6_zone_classification (p d : Int) (h0 : 0 ≤ p) (h1 : p ≤ 1023) :
    (classify d (nearAlarmDist p) (mediumAlarmDist p) = Zone.Near ↔ d ≤ p / 2) ∧
    (classify d (nearAlarmDist p) (mediumAlarmDist p) = Zone.Medium ↔ p / 2 < d ∧ d ≤ p) ∧
    (classify d (nearAlarmDist p) (mediumAlarmDist p) = Zone.Far ↔
      ¬ d ≤ p / 2 ∧ ¬ (p / 2 < d ∧ d ≤ p)) ∧
    (classify d (nearAlarmDist p) (mediumAlarmDist p) = Zone.Far ↔ p < d) ∧
    (∀ m : Int, d ≤ nearAlarmDist p → classify d (nearAlarmDist p) m = Zone.Near) ∧
    (∀ (s : State) (i : PassInput), i.pot = p → queryDue s i = true → i.RangeStatus ≠ 4 →
      (sampleStep s i).2 = Event.rangingTest ::
        zonePrint (classify (i.RangeMilliMeter : Int) (p / 2) p) (i.RangeMilliMeter : Int)) := by
  have hn := nearAlarmDist_eq_div p h0
  have hm : mediumAlarmDist p = p := rfl
  rw [hn, hm]
  refine ⟨?_, ?_, ?_, ?_, ?_, ?_⟩
  · unfold classify
    split_ifs <;> simp_all
  · unfold classify
    split_ifs <;> simp_all
  · unfold classify
    split_ifs <;> simp_all
  · unfold classify
    split_ifs <;> simp_all
    all_goals omega
  · intro m h
    simp [classify, h]
  · intro s i hp hq hr
    rw [sampleStep_fresh s i hq hr, hp, hn, hm]

/-- C6 at potentiometer 200: 100 mm is Near, 150 mm is Medium, 201 mm is Far,
and a fresh reading of 150 mm is printed as Medium. -/
theorem C6_zone_classification_witness :
    (0 : Int) ≤ 200 ∧ (200 : Int) ≤ 1023 ∧
    classify 100 (nearAlarmDist 200) (mediumAlarmDist 200) = Zone.Near ∧
    classify 201 (nearAlarmDist 200) (mediumAlarmDist 200) = Zone.Far ∧
    (classify 150 (nearAlarmDist 200) (mediumAlarmDist 200) = Zone.Medium ↔
      (200 : Int) / 2 < 150 ∧ (150 : Int) ≤ 200) ∧
    (sampleStep held80 (passAt true 200 0 150 9000)).2 =
      [Event.rangingTest, Event.serialZone Zone.Medium 150] :=
  ⟨by decide, by decide, by decide, by decide,
    (C6_zone_classification 200 150 (by decide) (by decide)).2.1, by decide⟩

/-- C7: for a potentiometer reading `p` in `[0, 1023]` the pass uses
`mediumAlarmDist = p` and `nearAlarmDist = p / 2`, the quotient truncated
toward zero, so `2 * nearAlarmDist ≤ p ≤ 2 * nearAlarmDist + 1` and
`0 ≤ nearAlarmDist ≤ 511`. -/
theorem C7_thresholds_from_pot (p : Int) (h0 : 0 ≤ p) (h1 : p ≤ 1023) :
    mediumAlarmDist p = p ∧
    nearAlarmDist p = Int.tdiv p 2 ∧
    nearAlarmDist p = p / 2 ∧
    2 * nearAlarmDist p ≤ p ∧ p ≤ 2 * nearAlarmDist p + 1 ∧
    0 ≤ nearAlarmDist p ∧ nearAlarmDist p ≤ 511 := by
  have hn := nearAlarmDist_eq_div p h0
  refine ⟨rfl, rfl, hn, ?_, ?_, ?_, ?_⟩ <;> rw [hn] <;> omega

/-- C7 at the odd reading 1023: medium 1023 and near 511. -/
theorem C7_thresholds_from_pot_witness :
    (0 : Int) ≤ 1023 ∧ (1023 : Int) ≤ 1023 ∧
    mediumAlarmDist 1023 = 1023 ∧ nearAlarmDist 1023 = 511 ∧
    2 * nearAlarmDist 1023 ≤ 1023 :=
  ⟨by decide, by decide, by decide, by decide,
    (C7_thresholds_from_pot 1023 (by decide) (by decide)).2.2.2.1⟩

/-! ## C8 and C9: the distance the decisions are taken on -/

theorem rangingTest_mem_sampleStep (s : State) (i : PassInput) :
    Event.rangingTest ∈ (sampleStep s i).2 ↔ queryDue s i = true := by
  unfold sampleStep
  split_ifs with h1 <;> simp [h1]

theorem rangingTest_not_mem_later (s : State) (i : PassInput) :
    Event.rangingTest ∉ buzzStep s i ∧ Event.rangingTest ∉ (puffStep s i).2 ∧
    Event.rangingTest ∉ (statusStep s i).2 ∧ Event.rangingTest ∉ (blueStep s i).2 := by
  refine ⟨?_, ?_, ?_, ?_⟩
  · unfold buzzStep
    split_ifs <;> simp
  · unfold puffStep
    split_ifs <;> simp
  · unfold statusStep
    split_ifs <;> simp [rangingTest_not_mem_flashLED]
  · unfold blueStep
    split_ifs <;> simp [rangingTest_not_mem_flashLED]

theorem queryDue_armStep (s : State) (sw : Bool) (i : PassInput) :
    queryDue (armStep s sw) i = queryDue s i := by
  simp [queryDue, (armStep_frame s sw).2.2.2.2.1]

/-- A pass queries the range-finder exactly when the test of line 129 holds on
the globals it starts from. -/
theorem queries_iff (s : State) (i : PassInput) :
    queries s i = true ↔ queryDue s i = true := by
  have h := rangingTest_mem_sampleStep (armStep s i.switchState) i
  rw [queryDue_armStep] at h
  simp only [queries, decide_eq_true_eq, loop, List.mem_append, h,
    (rangingTest_not_mem_later _ i).1, (rangingTest_not_mem_later _ i).2.1,
    (rangingTest_not_mem_later _ i).2.2.1, (rangingTest_not_mem_later _ i).2.2.2, or_false]

theorem queries_eq (s : State) (i : PassInput) : queries s i = queryDue s i := by
  rw [Bool.eq_iff_iff]
  exact queries_iff s i

theorem sensed_distance (s : State) (i : PassInput) :
    (sensed s i).distanceToObject =
      if queryDue s i = true ∧ i.RangeStatus ≠ 4 then (i.RangeMilliMeter : Int)
      else s.distanceToObject := by
  simp only [sensed, sampleStep, queryDue_armStep]
  split_ifs with h1 h2 h3 h4 <;> simp_all [(armStep_frame s i.switchState).2.2.2.1]

theorem loop_distance (s : State) (i : PassInput) :
    (loop s i).1.distanceToObject = (sensed s i).distanceToObject := by
  simp only [loop, sensed]
  rw [(blueStep_frame _ i).2.2.2.1, (statusStep_frame _ i).2.2.2.1, (puffStep_frame _ i).1]

/-- C8: for a potentiometer reading `p ≥ 0`, so for every `p` in `[0, 1023]`,
and a distance `d` held at the decisions of the pass with `p / 2 < d ≤ p`, the
pass switches the buzzer on and does not energise the relay, whatever the
switch level, the budget and the lockout timer; `puffsSoFar`, `lastPuffTime`
and `outOfAir` are unchanged. -/
theorem C8_medium_zone_buzzes_without_puff (s : State) (i : PassInput)
    (h0 : 0 ≤ i.pot)
    (hlo : i.pot / 2 < (sensed s i).distanceToObject)
    (hhi : (sensed s i).distanceToObject ≤ i.pot) :
    buzzerOn ∈ (loop s i).2 ∧
    relayOn ∉ (loop s i).2 ∧
    (loop s i).1.puffsSoFar = s.puffsSoFar ∧
    (loop s i).1.lastPuffTime = s.lastPuffTime ∧
    (loop s i).1.outOfAir = s.outOfAir := by
  have hd : puffDue (sensed s i) i = false := by
    rw [← Bool.not_eq_true, puffDue_sensed_iff, nearAlarmDist_eq_div _ h0]
    omega
  refine ⟨(buzzerOn_mem_loop s i).2 hhi, ?_, loop_budget_of_not_due s i hd⟩
  rw [relayOn_mem_loop, hd]
  simp

/-- C8 at potentiometer 200 and distance 150, armed, no puff spent and the
lockout long over: the buzzer sounds and the relay stays off. -/
theorem C8_medium_zone_buzzes_without_puff_witness :
    (passAt true 200 0 150 9000).pot = 200 ∧
    (sensed held80 (passAt true 200 0 150 9000)).distanceToObject = 150 ∧
    buzzerOn ∈ (loop held80 (passAt true 200 0 150 9000)).2 ∧
    relayOn ∉ (loop held80 (passAt true 200 0 150 9000)).2 ∧
    (loop held80 (passAt true 200 0 150 9000)).1.puffsSoFar = 0 :=
  ⟨by decide, by decide,
    (C8_medium_zone_buzzes_without_puff held80 (passAt true 200 0 150 9000)
      (by decide) (by decide) (by decide)).1,
    (C8_medium_zone_buzzes_without_puff held80 (passAt true 200 0 150 9000)
      (by decide) (by decide) (by decide)).2.1,
    (C8_medium_zone_buzzes_without_puff held80 (passAt true 200 0 150 9000)
      (by decide) (by decide) (by decide)).2.2.1⟩

/-- C9: after a pass `distanceToObject` is the reported `RangeMilliMeter` when
the pass made a range query and its status was not 4, and its previous value
otherwise; so it changes only on a query with status other than 4.  When the
query returns status 4 or no query is made, the buzzer and the actuation of
that pass are decided on the retained value. -/
theorem C9_distance_retained_unless_fresh (s : State) (i : PassInput) :
    ((loop s i).1.distanceToObject =
      if queries s i = true ∧ i.RangeStatus ≠ 4 then (i.RangeMilliMeter : Int)
      else s.distanceToObject) ∧
    ((loop s i).1.distanceToObject ≠ s.distanceToObject →
      queries s i = true ∧ i.RangeStatus ≠ 4) ∧
    ((queries s i = false ∨ i.RangeStatus = 4) →
      (loop s i).1.distanceToObject = s.distanceToObject ∧
      (buzzerOn ∈ (loop s i).2 ↔ s.distanceToObject ≤ mediumAlarmDist i.pot) ∧
      (relayOn ∈ (loop s i).2 ↔
        (i.switchState = true ∧ s.distanceToObject ≤ nearAlarmDist i.pot ∧
          s.puffsSoFar < MAX_PUFFS ∧
          i.tLockout > addU32 s.lastPuffTime PUFF_LOCKOUT_TIME))) := by
  have hd := sensed_distance s i
  rw [queries_eq]
  refine ⟨by rw [loop_distance, hd], fun hne => ?_, fun h => ?_⟩
  · rw [loop_distance, hd] at hne
    by_contra hc
    exact hne (if_neg hc)
  · have hkeep : (sensed s i).distanceToObject = s.distanceToObject := by
      rw [hd]
      apply if_neg
      rintro ⟨h1, h2⟩
      rcases h with h | h
      · rw [h1] at h
        cases h
      · exact h2 h
    refine ⟨by rw [loop_distance, hkeep], ?_, ?_⟩
    · rw [buzzerOn_mem_loop, hkeep]
    · rw [relayOn_mem_loop, puffDue_sensed_iff, hkeep]

/-- C9 with 80 mm held and an out-of-range sample (status 4, reported value
8190): the held distance stays 80, and the pass buzzes and puffs on it. -/
theorem C9_distance_retained_unless_fresh_witness :
    queries held80 (passAt true 200 4 8190 9000) = true ∧
    (passAt true 200 4 8190 9000).RangeStatus = 4 ∧
    (loop held80 (passAt true 200 4 8190 9000)).1.distanceToObject = 80 ∧
    buzzerOn ∈ (loop held80 (passAt true 200 4 8190 9000)).2 ∧
    relayOn ∈ (loop held80 (passAt true 200 4 8190 9000)).2 :=
  ⟨by decide, by decide,
    ((C9_distance_retained_unless_fresh held80 (passAt true 200 4 8190 9000)).2.2
      (Or.inr (by decide))).1,
    by decide, by decide⟩

/-! ## C10: the cadence of the range query -/

theorem loop_distance_of_stale (s : State) (i : PassInput)
    (h : queries s i = false ∨ i.RangeStatus = 4) :
    (sensed s i).distanceToObject = s.distanceToObject := by
  rw [sensed_distance, ← queries_eq]
  apply if_neg
  rintro ⟨h1, h2⟩
  rcases h with h | h
  · rw [h1] at h
    cases h
  · exact h2 h

theorem quiet_of_far (s : State) (i : PassInput) (hd : (sensed s i).distanceToObject = 5000)
    (h0 : 0 ≤ i.pot) (h1 : i.pot ≤ 1023) :
    buzzerOn ∉ (loop s i).2 ∧ relayOn ∉ (loop s i).2 := by
  constructor
  · rw [buzzerOn_mem_loop, hd]
    simp only [mediumAlarmDist]
    omega
  · rw [relayOn_mem_loop, puffDue_sensed_iff, hd, nearAlarmDist_eq_div _ h0]
    omega

theorem staleRun_cons (s : State) (i : PassInput) (is : List PassInput) :
    staleRun s (i :: is) = true ↔
      (queries s i = false ∨ i.RangeStatus = 4) ∧ staleRun (loop s i).1 is = true := by
  simp [staleRun]

theorem staleRun_append (is js : List PassInput) :
    ∀ s : State, staleRun s (is ++ js) = true → staleRun s is = true := by
  induction is with
  | nil => intro s _; rfl
  | cons i is ih =>
    intro s h
    rw [List.cons_append, staleRun_cons] at h
    rw [staleRun_cons]
    exact ⟨h.1, ih _ h.2⟩

theorem far_while_stale (is : List PassInput) :
    ∀ s : State, s.distanceToObject = 5000 →
      (∀ i ∈ is, 0 ≤ i.pot ∧ i.pot ≤ 1023) → staleRun s is = true →
      (run s is).distanceToObject = 5000 ∧
      buzzerOn ∉ trace s is ∧ relayOn ∉ trace s is := by
  induction is with
  | nil => intro s hd _ _; exact ⟨hd, by simp [trace], by simp [trace]⟩
  | cons i is ih =>
    intro s hd hp hs
    rw [staleRun_cons] at hs
    have hsd : (sensed s i).distanceToObject = 5000 := by
      rw [loop_distance_of_stale s i hs.1, hd]
    have hq := quiet_of_far s i hsd (hp i (List.mem_cons_self _ _)).1
      (hp i (List.mem_cons_self _ _)).2
    have hnext : (loop s i).1.distanceToObject = 5000 := by rw [loop_distance, hsd]
    obtain ⟨h1, h2, h3⟩ := ih (loop s i).1 hnext
      (fun j hj => hp j (List.mem_cons_of_mem _ hj)) hs.2
    refine ⟨h1, ?_, ?_⟩
    · simp only [trace, List.mem_append, not_or]
      exact ⟨hq.1, h2⟩
    · simp only [trace, List.mem_append, not_or]
      exact ⟨hq.2, h3⟩

/-- C11: from power-on, where `distanceToObject` is 5000, in an execution in
which no pass has yet stored an in-range reading (each pass makes no query or
gets status 4) and every potentiometer reading is in `[0, 1023]`, whatever the
switch levels: after every pass so far the held distance is still 5000, it
classifies as Far against the thresholds of every pass, and no pass sounds the
buzzer or energises the relay. -/
theorem C11_far_until_first_reading (t0 t1 t2 t3 : Nat) (is : List PassInput)
    (hpot : ∀ i ∈ is, 0 ≤ i.pot ∧ i.pot ≤ 1023)
    (hstale : staleRun (powerOn t0 t1 t2 t3) is = true) :
    (∀ js ks : List PassInput, is = js ++ ks →
      (run (powerOn t0 t1 t2 t3) js).distanceToObject = 5000) ∧
    (∀ i ∈ is, classify 5000 (nearAlarmDist i.pot) (mediumAlarmDist i.pot) = Zone.Far) ∧
    buzzerOn ∉ trace (powerOn t0 t1 t2 t3) is ∧
    relayOn ∉ trace (powerOn t0 t1 t2 t3) is := by
  have hall := far_while_stale is (powerOn t0 t1 t2 t3) rfl hpot hstale
  refine ⟨fun js ks h => ?_, fun i hi => ?_, hall.2.1, hall.2.2⟩
  · subst h
    exact (far_while_stale js (powerOn t0 t1 t2 t3) rfl
      (fun j hj => hpot j (List.mem_append_left _ hj))
      (staleRun_append js ks _ hstale)).1
  · have h0 := (hpot i hi).1
    have h1 := (hpot i hi).2
    rw [nearAlarmDist_eq_div _ h0]
    simp only [classify, mediumAlarmDist]
    rw [if_neg (by omega), if_neg (by omega)]

/-- C11 on three passes after a start-up at clock 0 with the potentiometer at
its maximum: an out-of-range query with the switch unpressed, a pass without a
query, and another out-of-range query with the switch pressed; the distance
stays 5000 and neither the buzzer nor the relay is switched on. -/
theorem C11_far_until_first_reading_witness :
    staleRun (powerOn 0 0 0 0)
      [passAt true 1023 4 8190 1100, passAt true 1023 0 50 1150,
       passAt false 1023 4 8190 7000] = true ∧
    (run (powerOn 0 0 0 0)
      [passAt true 1023 4 8190 1100, passAt true 1023 0 50 1150,
       passAt false 1023 4 8190 7000]).distanceToObject = 5000 ∧
    buzzerOn ∉ trace (powerOn 0 0 0 0)
      [passAt true 1023 4 8190 1100, passAt true 1023 0 50 1150,
       passAt false 1023 4 8190 7000] :=
  ⟨by decide,
    (C11_far_until_first_reading 0 0 0 0
      [passAt true 1023 4 8190 1100, passAt true 1023 0 50 1150,
       passAt false 1023 4 8190 7000] (by decide) (by decide)).1 _ [] (by simp),
    (C11_far_until_first_reading 0 0 0 0
      [passAt true 1023 4 8190 1100, passAt true 1023 0 50 1150,
       passAt false 1023 4 8190 7000] (by decide) (by decide)).2.2.1⟩

/-! ## C12 and C15: which flash a pass fires -/

theorem litColours_append (a b : List Event) :
    litColours (a ++ b) = litColours a ++ litColours b := by
  simp [litColours, List.filterMap_append]

theorem litColours_nil : litColours [] = [] := rfl

theorem litColours_flashLED (c : colorEnum) (b h : Nat) (hb : b ≠ 0) :
    litColours (flashLED c b h) = [c] := by
  cases c <;> simp [litColours, flashLED, colourOfPin, LED_R, LED_G, LED_B, hb]

theorem litColours_zonePrint (z : Zone) (d : Int) : litColours (zonePrint z d) = [] := by
  cases z <;> simp [litColours, zonePrint]

theorem litColours_sampleStep (s : State) (i : PassInput) :
    litColours (sampleStep s i).2 = [] := by
  unfold sampleStep
  split_ifs
  · have := litColours_zonePrint
      (classify (i.RangeMilliMeter : Int) (nearAlarmDist i.pot) (mediumAlarmDist i.pot))
      (i.RangeMilliMeter : Int)
    simpa [litColours] using this
  · simp [litColours]
  · simp [litColours]

theorem litColours_buzzStep (s : State) (i : PassInput) : litColours (buzzStep s i) = [] := by
  unfold buzzStep
  split_ifs <;> simp [litColours]

theorem litColours_puffStep (s : State) (i : PassInput) :
    litColours (puffStep s i).2 = [] := by
  unfold puffStep
  split_ifs <;> simp [litColours]

/-- The globals as they stand when the flash decisions are taken: the two flash
timers are those of the start of the pass, the arm flag is the switch level,
and the exhaustion flag is the one the pass ends with. -/
theorem flash_state (s : State) (i : PassInput) :
    (puffStep (sensed s i) i).1.lastFlashTime = s.lastFlashTime ∧
    (puffStep (sensed s i) i).1.outOfAirFlasherLastCheck = s.outOfAirFlasherLastCheck ∧
    (puffStep (sensed s i) i).1.airArmed = i.switchState ∧
    (puffStep (sensed s i) i).1.outOfAir = (loop s i).1.outOfAir := by
  refine ⟨?_, ?_, ?_, ?_⟩
  · simp only [puffStep, sensed, sampleStep, armStep]
    split_ifs <;> rfl
  · simp only [puffStep, sensed, sampleStep, armStep]
    split_ifs <;> rfl
  · rw [(puffStep_frame _ i).2.1, (sensed_frame s i).2.2.2]
  · rw [(loop_budget s i).2.2]

theorem statusStep_flasher (s : State) (i : PassInput) :
    (statusStep s i).1.outOfAirFlasherLastCheck = s.outOfAirFlasherLastCheck := by
  unfold statusStep
  split_ifs <;> rfl

/-- The colours a pass switches on: with `outOfAir` true after the puff step,
BLUE when the out-of-air interval has elapsed; with `outOfAir` false, RED or
GREEN by the switch level when the status interval has elapsed; nothing
otherwise. -/
theorem litColours_loop (s : State) (i : PassInput) :
    litColours (loop s i).2 =
      if (loop s i).1.outOfAir = true then
        (if i.tBlue ≥ addU32 s.outOfAirFlasherLastCheck OUT_OF_AIR_FLASH_INTERVAL
          then [colorEnum.BLUE] else [])
      else
        (if i.tStatus ≥ addU32 s.lastFlashTime ARMED_DISARMED_FLASH_INTERVAL
          then [if i.switchState = true then colorEnum.RED else colorEnum.GREEN] else []) := by
  obtain ⟨h1, h2, h3, h4⟩ := flash_state s i
  have hev : litColours (loop s i).2 =
      litColours (statusStep (puffStep (sensed s i) i).1 i).2 ++
        litColours (blueStep (statusStep (puffStep (sensed s i) i).1 i).1 i).2 := by
    simp only [loop, sensed, litColours_append, litColours_sampleStep, litColours_buzzStep,
      litColours_puffStep, List.nil_append]
  rw [hev, ← h4]
  generalize (puffStep (sensed s i) i).1 = fs at h1 h2 h3
  have hbo : (statusStep fs i).1.outOfAir = fs.outOfAir := (statusStep_frame fs i).2.2.1
  have hbf := statusStep_flasher fs i
  have h128 : (128 : Nat) ≠ 0 := by decide
  cases ho : fs.outOfAir
  · have hblue : (blueStep (statusStep fs i).1 i).2 = [] := by
      simp [blueStep, hbo, ho]
    rw [hblue]
    simp only [statusStep, ho, h1, h3]
    by_cases ht : i.tStatus ≥ addU32 s.lastFlashTime ARMED_DISARMED_FLASH_INTERVAL
    · cases hsw : i.switchState <;>
        simp [ht, litColours_flashLED _ _ _ h128, litColours_nil]
    · simp [ht, litColours_nil]
  · have hstat : statusStep fs i = (fs, []) := by
      simp [statusStep, ho]
    rw [hstat]
    simp only [blueStep, ho, h2, if_true]
    by_cases ht : i.tBlue ≥ addU32 s.outOfAirFlasherLastCheck OUT_OF_AIR_FLASH_INTERVAL
    · simp [ht, litColours_flashLED _ _ _ h128, litColours_nil]
    · simp [ht, litColours_nil]

theorem outOfAir_false_of_loop (s : State) (i : PassInput)
    (h : (loop s i).1.outOfAir = false) : s.outOfAir = false := by
  cases hs : s.outOfAir
  · rfl
  · rw [outOfAir_loop_of_outOfAir s i hs] at h
    cases h

theorem status_flash_suffix (s : State) (i : PassInput) (h : (loop s i).1.outOfAir = false)
    (ht : i.tStatus ≥ addU32 s.lastFlashTime ARMED_DISARMED_FLASH_INTERVAL) :
    flashLED (if i.switchState = true then colorEnum.RED else colorEnum.GREEN) 128
      FLASH_ON_TIME <:+ (loop s i).2 := by
  obtain ⟨h1, _, h3, h4⟩ := flash_state s i
  rw [h] at h4
  have hbo := (statusStep_frame (puffStep (sensed s i) i).1 i).2.2.1
  have hblue : (blueStep (statusStep (puffStep (sensed s i) i).1 i).1 i).2 = [] := by
    simp [blueStep, hbo, h4]
  have hstat : (statusStep (puffStep (sensed s i) i).1 i).2 =
      flashLED (if i.switchState = true then colorEnum.RED else colorEnum.GREEN) 128
        FLASH_ON_TIME := by
    simp only [statusStep, h4, h1, h3]
    cases hsw : i.switchState <;> simp [ht]
  refine ⟨(sampleStep (armStep s i.switchState) i).2 ++
    buzzStep (sampleStep (armStep s i.switchState) i).1 i ++
    (puffStep (sensed s i) i).2, ?_⟩
  rw [← hstat]
  simp only [loop, sensed] at hblue ⊢
  rw [hblue, List.append_nil]

/-- C12: in a pass in which `outOfAir` is false when the flash code is reached
(so false from the start to the end of the pass): if the status interval has
elapsed (`now ≥ lastFlashTime + 1000`, the sum in unsigned 32-bit arithmetic)
exactly one flash fires, the last output of the pass, RED when the switch level
read is HIGH (armed) and GREEN when it is LOW; otherwise no flash fires.  A
disarmed pass therefore lights GREEN only, and BLUE is never lit. -/
theorem C12_status_flash_when_not_exhausted (s : State) (i : PassInput)
    (h : (loop s i).1.outOfAir = false) :
    s.outOfAir = false ∧
    (i.tStatus ≥ addU32 s.lastFlashTime ARMED_DISARMED_FLASH_INTERVAL →
      litColours (loop s i).2 =
        [if i.switchState = true then colorEnum.RED else colorEnum.GREEN] ∧
      flashLED (if i.switchState = true then colorEnum.RED else colorEnum.GREEN) 128
        FLASH_ON_TIME <:+ (loop s i).2) ∧
    (¬ i.tStatus ≥ addU32 s.lastFlashTime ARMED_DISARMED_FLASH_INTERVAL →
      litColours (loop s i).2 = []) ∧
    (i.switchState = false → ∀ c ∈ litColours (loop s i).2, c = colorEnum.GREEN) ∧
    colorEnum.BLUE ∉ litColours (loop s i).2 := by
  have hl := litColours_loop s i
  simp only [h, Bool.false_eq_true, if_false] at hl
  refine ⟨outOfAir_false_of_loop s i h, fun ht => ⟨?_, status_flash_suffix s i h ht⟩,
    fun ht => ?_, fun hsw c hc => ?_, ?_⟩
  · rw [hl, if_pos ht]
  · rw [hl, if_neg ht]
  · rw [hl] at hc
    split_ifs at hc <;> simp_all
  · rw [hl]
    split_ifs <;> simp

/-- C12 on a disarmed pass at 9000 ms with the last status flash at 1000 ms and
an object at 80 mm: the pass lights GREEN and nothing else. -/
theorem C12_status_flash_when_not_exhausted_witness :
    (loop held80 (passAt false 200 0 80 9000)).1.outOfAir = false ∧
    (passAt false 200 0 80 9000).tStatus ≥
      addU32 held80.lastFlashTime ARMED_DISARMED_FLASH_INTERVAL ∧
    litColours (loop held80 (passAt false 200 0 80 9000)).2 = [colorEnum.GREEN] :=
  ⟨by decide, by decide,
    ((C12_status_flash_when_not_exhausted held80 (passAt false 200 0 80 9000)
      (by decide)).2.1 (by decide)).1⟩

/-- C15, as it holds: a pass fires at most one flash.  RED or GREEN is lit only
in a pass that reaches the flash code with `outOfAir` false and the status
interval elapsed, BLUE only in a pass that reaches it with `outOfAir` true and
the out-of-air interval elapsed; `outOfAir` is not written between the two
checks, so the two never fire in the same pass. -/
theorem C15_at_most_one_flash_per_pass (s : State) (i : PassInput) :
    (litColours (loop s i).2).length ≤ 1 ∧
    (∀ c ∈ litColours (loop s i).2, c ≠ colorEnum.BLUE →
      (loop s i).1.outOfAir = false ∧
      i.tStatus ≥ addU32 s.lastFlashTime ARMED_DISARMED_FLASH_INTERVAL) ∧
    (colorEnum.BLUE ∈ litColours (loop s i).2 →
      (loop s i).1.outOfAir = true ∧
      i.tBlue ≥ addU32 s.outOfAirFlasherLastCheck OUT_OF_AIR_FLASH_INTERVAL) := by
  rw [litColours_loop]
  refine ⟨?_, ?_, ?_⟩
  · split_ifs <;> simp
  · intro c hc hne
    split_ifs at hc with h1 h2 h3 <;> simp_all
  · intro hc
    split_ifs at hc with h1 h2 h3 <;> simp_all

/-- C15 after fifteen actuations: a pass at 100000 ms, armed and with the
status interval long elapsed, lights BLUE and only BLUE. -/
theorem C15_at_most_one_flash_per_pass_witness :
    colorEnum.BLUE ∈
      litColours (loop (run (powerOn 0 0 0 0) fifteenPuffs) (passAt true 200 0 80 100000)).2 ∧
    (passAt true 200 0 80 100000).tStatus ≥
      addU32 (run (powerOn 0 0 0 0) fifteenPuffs).lastFlashTime
        ARMED_DISARMED_FLASH_INTERVAL ∧
    (litColours
      (loop (run (powerOn 0 0 0 0) fifteenPuffs) (passAt true 200 0 80 100000)).2).length ≤ 1 ∧
    (loop (run (powerOn 0 0 0 0) fifteenPuffs) (passAt true 200 0 80 100000)).1.outOfAir = true :=
  ⟨by decide, by decide,
    (C15_at_most_one_flash_per_pass (run (powerOn 0 0 0 0) fifteenPuffs)
      (passAt true 200 0 80 100000)).1,
    ((C15_at_most_one_flash_per_pass (run (powerOn 0 0 0 0) fifteenPuffs)
      (passAt true 200 0 80 100000)).2.2 (by decide)).1⟩

/-- C15 fails as stated: there is no state and no input for which one pass
lights RED or GREEN and also BLUE. -/
theorem C15_counterexample_never_both_flashes :
    ¬ ∃ (s : State) (i : PassInput),
      (colorEnum.RED ∈ litColours (loop s i).2 ∨ colorEnum.GREEN ∈ litColours (loop s i).2) ∧
      colorEnum.BLUE ∈ litColours (loop s i).2 := by
  rintro ⟨s, i, h1, h2⟩
  rw [litColours_loop] at h1 h2
  split_ifs at h1 h2 <;> simp_all

/-! ## C14: the buzzer before the puff -/

theorem buzz_then_puff_infix (s : State) (i : PassInput)
    (hb : (sensed s i).distanceToObject ≤ mediumAlarmDist i.pot)
    (hp : puffDue (sensed s i) i = true) :
    [buzzerOn, Event.delay WARNING_BUZZ_DURATION, Event.digitalWrite BUZZER 0,
      relayOn, Event.delay puffLength, Event.digitalWrite AIR_RELAY RELAY_OFF]
      <:+: (loop s i).2 := by
  refine ⟨(sampleStep (armStep s i.switchState) i).2,
    (statusStep (puffStep (sensed s i) i).1 i).2 ++
      (blueStep (statusStep (puffStep (sensed s i) i).1 i).1 i).2, ?_⟩
  have h3 : buzzStep (sensed s i) i =
      [buzzerOn, Event.delay WARNING_BUZZ_DURATION, Event.digitalWrite BUZZER 0] := by
    simp [buzzStep, hb, buzzerOn]
  have h4 : (puffStep (sensed s i) i).2 =
      [relayOn, Event.delay puffLength, Event.digitalWrite AIR_RELAY RELAY_OFF] := by
    simp [puffStep, hp, relayOn]
  simp only [sensed] at h3 h4
  simp only [loop, sensed, h3, h4, List.append_assoc, List.cons_append, List.nil_append]

/-- C14: for a potentiometer reading `p ≥ 0`, so for every `p` in `[0, 1023]`,
every distance `d ≤ p / 2` (the near condition) also has `d ≤ p` (the medium
condition), so a pass that senses such a distance sounds the buzzer; and a pass
that energises the relay has run the whole buzzer pulse just before it. -/
theorem C14_near_implies_buzzer (s : State) (i : PassInput) (h0 : 0 ≤ i.pot) :
    (∀ d : Int, d ≤ nearAlarmDist i.pot → d ≤ mediumAlarmDist i.pot) ∧
    ((sensed s i).distanceToObject ≤ nearAlarmDist i.pot → buzzerOn ∈ (loop s i).2) ∧
    (relayOn ∈ (loop s i).2 →
      [buzzerOn, Event.delay WARNING_BUZZ_DURATION, Event.digitalWrite BUZZER 0,
        relayOn, Event.delay puffLength, Event.digitalWrite AIR_RELAY RELAY_OFF]
        <:+: (loop s i).2) := by
  have hnm : ∀ d : Int, d ≤ nearAlarmDist i.pot → d ≤ mediumAlarmDist i.pot := by
    intro d hd
    rw [nearAlarmDist_eq_div _ h0] at hd
    simp only [mediumAlarmDist]
    omega
  refine ⟨hnm, fun hd => (buzzerOn_mem_loop s i).2 (hnm _ hd), fun hr => ?_⟩
  have hp := (relayOn_mem_loop s i).1 hr
  exact buzz_then_puff_infix s i (hnm _ ((puffDue_sensed_iff s i).1 hp).2.1) hp

/-- C14 on an armed pass with a fresh reading of 80 mm against a near
threshold of 100: the buzzer pulse and then the puff are the pass's outputs
after the range query. -/
theorem C14_near_implies_buzzer_witness :
    (0 : Int) ≤ (passAt true 200 0 80 9000).pot ∧
    relayOn ∈ (loop held80 (passAt true 200 0 80 9000)).2 ∧
    [buzzerOn, Event.delay WARNING_BUZZ_DURATION, Event.digitalWrite BUZZER 0,
      relayOn, Event.delay puffLength, Event.digitalWrite AIR_RELAY RELAY_OFF]
      <:+: (loop held80 (passAt true 200 0 80 9000)).2 :=
  ⟨by decide, by decide,
    (C14_near_implies_buzzer held80 (passAt true 200 0 80 9000) (by decide)).2.2 (by decide)⟩

/-! ## C16: the channels during a flash -/

theorem ledRun_append (l : Led) (a b : List Event) :
    ledRun l (a ++ b) = ledRun (ledRun l a) b := by
  simp [ledRun, List.foldl_append]

theorem ledStates_append (a b : List Event) :
    ∀ l : Led, ledStates l (a ++ b) = ledStates l a ++ ledStates (ledRun l a) b := by
  induction a with
  | nil => intro l; rfl
  | cons e a ih =>
    intro l
    show ledWrite l e :: ledStates (ledWrite l e) (a ++ b) = _
    rw [ih]
    rfl

theorem flashLED_channels (c : colorEnum) (b h : Nat) :
    (∀ l : Led, ledRun l ((flashLED c b h).take 3) = onlyLit c b) ∧
    (∀ l : Led, ledRun l (flashLED c b h) = ledOff) ∧
    (∀ l ∈ ledStates ledOff (flashLED c b h), atMostOneLit l) := by
  cases c <;>
    simp [flashLED, ledRun, ledStates, ledWrite, onlyLit, ledOff, atMostOneLit, LED_R, LED_G, LED_B]

/-- The outputs of the range, buzzer and puff steps leave the channels alone. -/
theorem ledWrite_of_not_analog (l : Led) (e : Event)
    (h : ∀ pin val, e ≠ Event.analogWrite pin val) : ledWrite l e = l := by
  cases e <;> simp_all [ledWrite]

theorem led_unchanged (es : List Event)
    (h : ∀ e ∈ es, ∀ pin val, e ≠ Event.analogWrite pin val) :
    ∀ l : Led, ledRun l es = l ∧ ∀ l' ∈ ledStates l es, l' = l := by
  induction es with
  | nil => intro l; simp [ledRun, ledStates]
  | cons e es ih =>
    intro l
    have he := ledWrite_of_not_analog l e (h e (List.mem_cons_self _ _))
    have hes := ih (fun e' he' => h e' (List.mem_cons_of_mem _ he')) l
    simp only [ledRun, List.foldl_cons, ledStates, he, List.mem_cons]
    refine ⟨hes.1, ?_⟩
    rintro l' (rfl | hl)
    · rfl
    · exact hes.2 l' hl

theorem no_analog_before_flash (s : State) (i : PassInput) :
    ∀ e ∈ (sampleStep (armStep s i.switchState) i).2 ++
        buzzStep (sampleStep (armStep s i.switchState) i).1 i ++
        (puffStep (sensed s i) i).2,
      ∀ pin val, e ≠ Event.analogWrite pin val := by
  intro e he pin val hc
  subst hc
  simp only [List.mem_append] at he
  rcases he with (he | he) | he
  · unfold sampleStep at he
    split_ifs at he
    · simp only [List.mem_cons] at he
      rcases he with he | he
      · cases he
      · revert he
        cases classify (i.RangeMilliMeter : Int) (nearAlarmDist i.pot) (mediumAlarmDist i.pot) <;>
          simp [zonePrint]
    · simp at he
    · simp at he
  · unfold buzzStep at he
    split_ifs at he <;> simp at he
  · unfold puffStep at he
    split_ifs at he <;> simp at he

theorem flash_steps_events (s : State) (i : PassInput) :
    ((statusStep s i).2 = [] ∨ ∃ c, (statusStep s i).2 = flashLED c 128 FLASH_ON_TIME) ∧
    ((blueStep s i).2 = [] ∨ ∃ c, (blueStep s i).2 = flashLED c 128 FLASH_ON_TIME) := by
  constructor
  · unfold statusStep
    split_ifs
    · exact Or.inr ⟨colorEnum.RED, rfl⟩
    · exact Or.inr ⟨colorEnum.GREEN, rfl⟩
    · exact Or.inl rfl
  · unfold blueStep
    split_ifs
    · exact Or.inr ⟨colorEnum.BLUE, rfl⟩
    · exact Or.inl rfl
    · exact Or.inl rfl

theorem flash_events_channels (es : List Event)
    (h : es = [] ∨ ∃ c, es = flashLED c 128 FLASH_ON_TIME) :
    ledRun ledOff es = ledOff ∧ ∀ l ∈ ledStates ledOff es, atMostOneLit l := by
  rcases h with rfl | ⟨c, rfl⟩
  · exact ⟨rfl, by simp [ledStates]⟩
  · exact ⟨(flashLED_channels c 128 FLASH_ON_TIME).2.1 _,
      (flashLED_channels c 128 FLASH_ON_TIME).2.2⟩

theorem flash_steps_channels (s : State) (i : PassInput) :
    ledRun ledOff (statusStep s i).2 = ledOff ∧
    (∀ l ∈ ledStates ledOff (statusStep s i).2, atMostOneLit l) ∧
    ledRun ledOff (blueStep s i).2 = ledOff ∧
    (∀ l ∈ ledStates ledOff (blueStep s i).2, atMostOneLit l) :=
  ⟨(flash_events_channels _ (flash_steps_events s i).1).1,
    (flash_events_channels _ (flash_steps_events s i).1).2,
    (flash_events_channels _ (flash_steps_events s i).2).1,
    (flash_events_channels _ (flash_steps_events s i).2).2⟩

theorem atMostOneLit_ledOff : atMostOneLit ledOff := by
  simp [atMostOneLit, ledOff]

theorem channels_compose (pre st bl : List Event)
    (hpre : ledRun ledOff pre = ledOff ∧ ∀ l ∈ ledStates ledOff pre, l = ledOff)
    (hst : ledRun ledOff st = ledOff ∧ ∀ l ∈ ledStates ledOff st, atMostOneLit l)
    (hbl : ledRun ledOff bl = ledOff ∧ ∀ l ∈ ledStates ledOff bl, atMostOneLit l) :
    ledRun ledOff (pre ++ (st ++ bl)) = ledOff ∧
    ∀ l ∈ ledStates ledOff (pre ++ (st ++ bl)), atMostOneLit l := by
  constructor
  · rw [ledRun_append, hpre.1, ledRun_append, hst.1, hbl.1]
  · intro l hl
    rw [ledStates_append pre, hpre.1, ledStates_append st, hst.1] at hl
    simp only [List.mem_append] at hl
    rcases hl with hl | hl | hl
    · rw [hpre.2 l hl]
      exact atMostOneLit_ledOff
    · exact hst.2 l hl
    · exact hbl.2 l hl

/-- A pass entered with all channels at zero never has two channels non-zero
and leaves all channels at zero. -/
theorem loop_channels (s : State) (i : PassInput) :
    ledRun ledOff (loop s i).2 = ledOff ∧
    ∀ l ∈ ledStates ledOff (loop s i).2, atMostOneLit l := by
  have hpre := led_unchanged _ (no_analog_before_flash s i) ledOff
  have hst := flash_steps_channels (puffStep (sensed s i) i).1 i
  have hbl := flash_steps_channels (statusStep (puffStep (sensed s i) i).1 i).1 i
  have hsplit : (loop s i).2 =
      ((sampleStep (armStep s i.switchState) i).2 ++
        buzzStep (sampleStep (armStep s i.switchState) i).1 i ++
        (puffStep (sensed s i) i).2) ++
      ((statusStep (puffStep (sensed s i) i).1 i).2 ++
        (blueStep (statusStep (puffStep (sensed s i) i).1 i).1 i).2) := by
    simp only [loop, sensed, List.append_assoc]
  rw [hsplit]
  exact channels_compose _ _ _ hpre ⟨hst.1, hst.2.1⟩ ⟨hbl.2.2.1, hbl.2.2.2⟩

/-- C16: for every colour, brightness `b` and duration, `flashLED` issues three
channel writes that leave the selected channel at `b` and the other two at 0,
then the hold, then writes 0 to all three channels.  Entered with all channels
at zero, as every call of the sketch is, at no point of the call are two
channels non-zero together; on return all three channels are 0, whatever they
were before.  The same holds for every whole pass of the loop. -/
theorem C16_flashLED_single_channel (c : colorEnum) (b howLong : Nat) :
    ((flashLED c b howLong).take 3).length = 3 ∧
    (∀ e ∈ (flashLED c b howLong).take 3, ∃ pin val, e = Event.analogWrite pin val) ∧
    (∀ l : Led, ledRun l ((flashLED c b howLong).take 3) = onlyLit c b) ∧
    (flashLED c b howLong).drop 3 =
      [Event.delay howLong, Event.analogWrite LED_R 0, Event.analogWrite LED_G 0,
        Event.analogWrite LED_B 0] ∧
    (∀ l : Led, ledRun l (flashLED c b howLong) = ledOff) ∧
    (∀ l ∈ ledStates ledOff (flashLED c b howLong), atMostOneLit l) ∧
    (∀ (s : State) (i : PassInput), ledRun ledOff (loop s i).2 = ledOff ∧
      ∀ l ∈ ledStates ledOff (loop s i).2, atMostOneLit l) := by
  have hc := flashLED_channels c b howLong
  refine ⟨?_, ?_, hc.1, ?_, hc.2.1, hc.2.2, loop_channels⟩
  · cases c <;> simp [flashLED]
  · cases c <;> simp [flashLED]
  · cases c <;> simp [flashLED]

/-! ## `checkSwitch`: C13, C17 and C18 -/

theorem checkSwitchLoop_done (levels : Nat → Bool) (fuel n counter : Nat) (prevState state : Bool)
    (h : ¬ counter < debounceDelay) :
    checkSwitchLoop levels fuel n counter prevState state = some (state, n) := by
  cases fuel <;> simp [checkSwitchLoop, h]

theorem checkSwitchLoop_step (levels : Nat → Bool) (fuel n counter : Nat)
    (prevState state : Bool) (h : counter < debounceDelay) :
    checkSwitchLoop levels (fuel + 1) n counter prevState state =
      if levels (n + 1) ≠ prevState then
        checkSwitchLoop levels fuel (n + 1) 1 (levels (n + 1)) (levels (n + 1))
      else
        checkSwitchLoop levels fuel (n + 1) (counter + 1) prevState (levels (n + 1)) := by
  simp [checkSwitchLoop, h]

theorem checkSwitchLoop_zero (levels : Nat → Bool) (n counter : Nat)
    (prevState state : Bool) (h : counter < debounceDelay) :
    checkSwitchLoop levels 0 n counter prevState state = none := by
  simp [checkSwitchLoop, h]

/-- What the loop returns: the last level read, after at least twenty rounds,
the last twenty levels read all being equal to it. -/
theorem checkSwitchLoop_sound (levels : Nat → Bool) (fuel : Nat) :
    ∀ (n counter : Nat) (prevState state r : Bool) (m : Nat),
      counter ≤ debounceDelay → counter ≤ n →
      (∀ j, n < j + counter → j ≤ n → levels j = prevState) →
      (1 ≤ n → state = levels n) →
      checkSwitchLoop levels fuel n counter prevState state = some (r, m) →
      r = levels m ∧ 20 ≤ m ∧ m ≤ n + fuel ∧
        (∀ j, m < j + 20 → j ≤ m → levels j = r) := by
  have hdone : ∀ (n counter : Nat) (prevState state r : Bool) (m f : Nat),
      counter ≤ debounceDelay → counter ≤ n →
      (∀ j, n < j + counter → j ≤ n → levels j = prevState) →
      (1 ≤ n → state = levels n) → ¬ counter < debounceDelay →
      some (state, n) = some (r, m) →
      r = levels m ∧ 20 ≤ m ∧ m ≤ n + f ∧
        (∀ j, m < j + 20 → j ≤ m → levels j = r) := by
    intro n counter prevState state r m f hc hn hinv hst hlt h
    simp only [Option.some.injEq, Prod.mk.injEq] at h
    obtain ⟨rfl, rfl⟩ := h
    simp only [debounceDelay] at hc hlt
    have hc20 : counter = 20 := by omega
    subst hc20
    have hs := hst (by omega)
    have hp := hinv n (by omega) (le_refl _)
    refine ⟨hs, by omega, by omega, fun j h1 h2 => ?_⟩
    rw [hinv j h1 h2, hs, hp]
  induction fuel with
  | zero =>
    intro n counter prevState state r m hc hn hinv hst h
    by_cases hlt : counter < debounceDelay
    · rw [checkSwitchLoop_zero _ _ _ _ _ hlt] at h
      cases h
    · rw [checkSwitchLoop_done _ _ _ _ _ _ hlt] at h
      exact hdone n counter prevState state r m 0 hc hn hinv hst hlt h
  | succ fuel ih =>
    intro n counter prevState state r m hc hn hinv hst h
    by_cases hlt : counter < debounceDelay
    · rw [checkSwitchLoop_step _ _ _ _ _ _ hlt] at h
      split_ifs at h with hne
      · have := ih (n + 1) 1 (levels (n + 1)) (levels (n + 1)) r m
          (by simp [debounceDelay]) (by omega)
          (fun j h1 h2 => by
            have : j = n + 1 := by omega
            rw [this])
          (fun _ => rfl) h
        exact ⟨this.1, this.2.1, by omega, this.2.2.2⟩
      · have heq : levels (n + 1) = prevState := by simpa using hne
        have := ih (n + 1) (counter + 1) prevState (levels (n + 1)) r m
          (by omega) (by omega)
          (fun j h1 h2 => by
            by_cases hj : j = n + 1
            · rw [hj, heq]
            · exact hinv j (by omega) (by omega))
          (fun _ => rfl) h
        exact ⟨this.1, this.2.1, by omega, this.2.2.2⟩
    · rw [checkSwitchLoop_done _ _ _ _ _ _ hlt] at h
      exact hdone n counter prevState state r m (fuel + 1) hc hn hinv hst hlt h

/-- While the level stays at `prevState` the loop counts up to twenty and
returns. -/
theorem checkSwitchLoop_stable (levels : Nat → Bool) (k : Nat) :
    ∀ (fuel n counter : Nat) (prevState : Bool),
      counter + k = debounceDelay → k ≤ fuel →
      (∀ j, n < j → j ≤ n + k → levels j = prevState) →
      checkSwitchLoop levels fuel n counter prevState prevState = some (prevState, n + k) := by
  induction k with
  | zero =>
    intro fuel n counter prevState hc _ _
    exact checkSwitchLoop_done _ _ _ _ _ _ (by omega)
  | succ k ih =>
    intro fuel n counter prevState hc hf hl
    obtain ⟨f, rfl⟩ : ∃ f, fuel = f + 1 := ⟨fuel - 1, by omega⟩
    have hnext : levels (n + 1) = prevState := hl (n + 1) (by omega) (by omega)
    rw [checkSwitchLoop_step _ _ _ _ _ _ (by omega), hnext]
    simp only [ne_eq, not_true_eq_false, if_false]
    rw [ih f (n + 1) (counter + 1) prevState (by omega) (by omega)
      (fun j h1 h2 => hl j (by omega) (by omega))]
    congr 2
    omega

/-- More fuel does not change a result. -/
theorem checkSwitchLoop_mono (levels : Nat → Bool) (fuel : Nat) :
    ∀ (d n counter : Nat) (prevState state : Bool) (x : Bool × Nat),
      checkSwitchLoop levels fuel n counter prevState state = some x →
      checkSwitchLoop levels (fuel + d) n counter prevState state = some x := by
  induction fuel with
  | zero =>
    intro d n counter prevState state x h
    by_cases hlt : counter < debounceDelay
    · rw [checkSwitchLoop_zero _ _ _ _ _ hlt] at h
      cases h
    · rw [checkSwitchLoop_done _ _ _ _ _ _ hlt] at h ⊢
      exact h
  | succ fuel ih =>
    intro d n counter prevState state x h
    by_cases hlt : counter < debounceDelay
    · have hfd : fuel + 1 + d = (fuel + d) + 1 := by omega
      rw [hfd, checkSwitchLoop_step _ _ _ _ _ _ hlt]
      rw [checkSwitchLoop_step _ _ _ _ _ _ hlt] at h
      split_ifs at h ⊢ with hne
      · exact ih d _ _ _ _ x h
      · exact ih d _ _ _ _ x h
    · rw [checkSwitchLoop_done _ _ _ _ _ _ hlt] at h ⊢
      exact h

/-- Once the level no longer changes the loop returns. -/
theorem checkSwitchLoop_terminates (levels : Nat → Bool) (N : Nat)
    (hN : ∀ k, N ≤ k → levels k = levels N) (d : Nat) :
    ∀ (n counter : Nat) (prevState state : Bool),
      N ≤ n + d → counter ≤ debounceDelay → prevState = levels n →
      ∃ fuel x, checkSwitchLoop levels fuel n counter prevState state = some x := by
  induction d with
  | zero =>
    intro n counter prevState state hn hc hp
    by_cases hlt : counter < debounceDelay
    · have hconst : ∀ j, n ≤ j → levels j = prevState := fun j hj => by
        rw [hp, hN j (by omega), hN n (by omega)]
      refine ⟨(debounceDelay - (counter + 1)) + 1, (prevState, n + 1 + (debounceDelay - (counter + 1))), ?_⟩
      rw [checkSwitchLoop_step _ _ _ _ _ _ hlt, hconst (n + 1) (by omega)]
      simp only [ne_eq, not_true_eq_false, if_false]
      exact checkSwitchLoop_stable levels _ _ (n + 1) (counter + 1) prevState (by omega)
        (le_refl _) (fun j h1 _ => hconst j (by omega))
    · exact ⟨0, (state, n), checkSwitchLoop_done _ _ _ _ _ _ hlt⟩
  | succ d ih =>
    intro n counter prevState state hn hc hp
    by_cases hlt : counter < debounceDelay
    · by_cases hne : levels (n + 1) ≠ prevState
      · obtain ⟨fuel, x, hx⟩ := ih (n + 1) 1 (levels (n + 1)) (levels (n + 1)) (by omega)
          (by simp [debounceDelay]) rfl
        refine ⟨fuel + 1, x, ?_⟩
        rw [checkSwitchLoop_step _ _ _ _ _ _ hlt, if_pos hne]
        exact hx
      · have heq : levels (n + 1) = prevState := by simpa using hne
        obtain ⟨fuel, x, hx⟩ := ih (n + 1) (counter + 1) prevState (levels (n + 1)) (by omega)
          (by omega) heq.symm
        refine ⟨fuel + 1, x, ?_⟩
        rw [checkSwitchLoop_step _ _ _ _ _ _ hlt, if_neg hne]
        exact hx
    · exact ⟨0, (state, n), checkSwitchLoop_done _ _ _ _ _ _ hlt⟩

theorem checkSwitch_eq_some (levels : Nat → Bool) (fuel : Nat) (r : Bool) (n : Nat) :
    checkSwitch levels fuel = some (r, n) ↔
      checkSwitchLoop levels fuel 0 0 (levels 0) (levels 0) = some (r, n) := by
  unfold checkSwitch
  cases h : checkSwitchLoop levels fuel 0 0 (levels 0) (levels 0) with
  | none => simp
  | some x =>
    obtain ⟨st, m⟩ := x
    cases st <;> simp [HIGH]

theorem checkSwitch_sound (levels : Nat → Bool) (fuel : Nat) (r : Bool) (n : Nat)
    (h : checkSwitch levels fuel = some (r, n)) :
    r = levels n ∧ 20 ≤ n ∧ n ≤ fuel ∧ (∀ j, n < j + 20 → j ≤ n → levels j = r) := by
  rw [checkSwitch_eq_some] at h
  have := checkSwitchLoop_sound levels fuel 0 0 (levels 0) (levels 0) r n
    (by simp [debounceDelay]) (le_refl _) (fun j h1 h2 => by omega) (fun h0 => by omega) h
  exact ⟨this.1, this.2.1, by omega, this.2.2.2⟩

theorem checkSwitch_mono (levels : Nat → Bool) (fuel d : Nat) (r : Bool) (n : Nat)
    (h : checkSwitch levels fuel = some (r, n)) :
    checkSwitch levels (fuel + d) = some (r, n) := by
  rw [checkSwitch_eq_some] at h ⊢
  exact checkSwitchLoop_mono levels fuel d 0 0 _ _ _ h

/-- With samples 1 to 20 all at one level the call returns that level after
exactly twenty rounds. -/
theorem checkSwitch_twenty (levels : Nat → Bool)
    (h : ∀ k, 1 ≤ k → k ≤ 20 → levels k = levels 1) (fuel : Nat) (hf : 20 ≤ fuel) :
    checkSwitch levels fuel = some (levels 1, 20) := by
  obtain ⟨d, rfl⟩ : ∃ d, fuel = 20 + d := ⟨fuel - 20, by omega⟩
  apply checkSwitch_mono
  rw [checkSwitch_eq_some]
  have hfirst : checkSwitchLoop levels (19 + 1) 0 0 (levels 0) (levels 0) =
      checkSwitchLoop levels 19 1 1 (levels 1) (levels 1) := by
    rw [checkSwitchLoop_step _ _ _ _ _ _ (by simp [debounceDelay])]
    split_ifs with hne
    · rfl
    · have heq : levels (0 + 1) = levels 0 := by simpa using hne
      rw [← heq]
  rw [show (20 : Nat) = 19 + 1 from rfl, hfirst]
  exact checkSwitchLoop_stable levels 19 19 1 1 (levels 1) (by simp [debounceDelay])
    (le_refl _) (fun j h1 h2 => h j (by omega) (by omega))

/-- C13: the arm step sets `airArmed` to true exactly when `checkSwitch`
returned true, the HIGH (unpressed) level, and to false exactly when it
returned false, the LOW level equal to `SWITCH_PRESSED`, whatever `airArmed`
was before; the flag keeps that value to the end of the pass; and the value
`checkSwitch` returns is the last level it read from the pin. -/
theorem C13_airArmed_is_switch_level (s : State) (sw : Bool) :
    ((armStep s sw).airArmed = true ↔ sw = HIGH) ∧
    ((armStep s sw).airArmed = false ↔ sw = LOW) ∧
    ((armStep s sw).airArmed = false ↔ (if sw = true then 1 else 0) = SWITCH_PRESSED) ∧
    (∀ b : Bool, (armStep { s with airArmed := b } sw).airArmed = (armStep s sw).airArmed) ∧
    (∀ i : PassInput, (loop s i).1.airArmed = i.switchState) ∧
    (∀ (levels : Nat → Bool) (fuel n : Nat) (r : Bool),
      checkSwitch levels fuel = some (r, n) →
      ((armStep s r).airArmed = true ↔ levels n = HIGH)) := by
  refine ⟨?_, ?_, ?_, ?_, loop_airArmed s, ?_⟩
  · cases sw <;> simp [armStep, SWITCH_PRESSED, HIGH]
  · cases sw <;> simp [armStep, SWITCH_PRESSED, LOW]
  · cases sw <;> simp [armStep, SWITCH_PRESSED]
  · intro b
    cases sw <;> simp [armStep, SWITCH_PRESSED]
  · intro levels fuel n r h
    rw [← (checkSwitch_sound levels fuel r n h).1]
    cases r <;> simp [armStep, SWITCH_PRESSED, HIGH]

/-- C13 on a pin held LOW with `airArmed` true before the pass: `checkSwitch`
returns false and the arm step clears the flag. -/
theorem C13_airArmed_is_switch_level_witness :
    held80.airArmed = true ∧
    checkSwitch heldLow 20 = some (false, 20) ∧
    ((armStep held80 false).airArmed = true ↔ heldLow 20 = HIGH) ∧
    (armStep held80 false).airArmed = false :=
  ⟨by decide, by decide,
    (C13_airArmed_is_switch_level held80 false).2.2.2.2.2 heldLow 20 20 false (by decide),
    by decide⟩

/-- A change of level the call has read keeps it sampling for at least 19
further rounds. -/
theorem checkSwitch_change_bound (levels : Nat → Bool) (fuel n k : Nat) (r : Bool)
    (h : checkSwitch levels fuel = some (r, n)) (h1 : 1 ≤ k) (hk : k ≤ n)
    (hne : levels k ≠ levels (k - 1)) : k + 19 ≤ n := by
  by_contra hc
  have hs := checkSwitch_sound levels fuel r n h
  exact hne ((hs.2.2.2 k (by omega) hk).trans (hs.2.2.2 (k - 1) (by omega) (by omega)).symm)

/-- On levels that no longer change from read `N` on the call returns. -/
theorem checkSwitch_returns (levels : Nat → Bool) (N : Nat)
    (hN : ∀ k, N ≤ k → levels k = levels N) :
    ∃ (fuel n : Nat) (r : Bool), checkSwitch levels fuel = some (r, n) := by
  obtain ⟨F, x, hx⟩ := checkSwitchLoop_terminates levels N hN N 0 0 (levels 0) (levels 0)
    (by omega) (by simp [debounceDelay]) rfl
  obtain ⟨r, n⟩ := x
  exact ⟨F, n, r, (checkSwitch_eq_some levels F r n).2 hx⟩

/-- On a pin that changes level at every read the call never returns. -/
theorem checkSwitch_never_of_alternating (levels : Nat → Bool)
    (halt : ∀ k, levels (k + 1) ≠ levels k) (fuel : Nat) : checkSwitch levels fuel = none := by
  cases hc : checkSwitch levels fuel with
  | none => rfl
  | some x =>
    obtain ⟨r, n⟩ := x
    have hs := checkSwitch_sound levels fuel r n hc
    have hne : levels n ≠ levels (n - 1) := by
      have := halt (n - 1)
      rwa [show n - 1 + 1 = n by omega] at this
    have := checkSwitch_change_bound levels fuel n n r hc (by omega) (le_refl _) hne
    omega

/-- For every `N` there is a pin on which the call returns, and only after more
than `N` rounds. -/
theorem checkSwitch_unbounded (N : Nat) :
    ∃ (levels : Nat → Bool) (fuel n : Nat) (r : Bool),
      checkSwitch levels fuel = some (r, n) ∧ N < n := by
  have hconst : ∀ k, N ≤ k → bounceUntil N k = bounceUntil N N := by
    intro k hk
    simp [bounceUntil, Nat.min_eq_right hk]
  obtain ⟨fuel, n, r, h⟩ := checkSwitch_returns (bounceUntil N) N hconst
  refine ⟨bounceUntil N, fuel, n, r, h, ?_⟩
  by_contra hle
  have hs := checkSwitch_sound (bounceUntil N) fuel r n h
  have hne : bounceUntil N n ≠ bounceUntil N (n - 1) := by
    have h1 : min n N = n := Nat.min_eq_left (by omega)
    have h2 : min (n - 1) N = n - 1 := Nat.min_eq_left (by omega)
    simp only [bounceUntil, h1, h2, ne_eq, decide_eq_decide]
    omega
  have := checkSwitch_change_bound (bounceUntil N) fuel n n r h (by omega) (le_refl _) hne
  omega

/-- C17, as it holds: a call of `checkSwitch` that returns has taken at least
20 sampling rounds, and exactly 20 if and only if the levels read at samples 1
to 20 are all equal; with samples 1 to 20 all equal it does return after 20
rounds; a change of level at any sample from the second to the twentieth
restarts the count, and the call is still sampling after 20 rounds; a change
of level read at sample `k` keeps the call sampling to round `k + 19` at
least.  There is no upper bound on the duration of a call: for every `N` some
sequence of levels makes the call return only after more than `N` rounds, and
on a pin that changes level at every read the call never returns. -/
theorem C17_checkSwitch_rounds :
    (∀ (levels : Nat → Bool) (fuel n : Nat) (r : Bool),
      checkSwitch levels fuel = some (r, n) →
      20 ≤ n ∧ (n = 20 ↔ ∀ k, 1 ≤ k → k ≤ 20 → levels k = levels 1)) ∧
    (∀ levels : Nat → Bool, (∀ k, 1 ≤ k → k ≤ 20 → levels k = levels 1) →
      ∀ fuel, 20 ≤ fuel → checkSwitch levels fuel = some (levels 1, 20)) ∧
    (∀ (levels : Nat → Bool) (k : Nat), 2 ≤ k → k ≤ 20 → levels k ≠ levels (k - 1) →
      checkSwitch levels 20 = none) ∧
    (∀ (levels : Nat → Bool) (fuel n k : Nat) (r : Bool),
      checkSwitch levels fuel = some (r, n) → 1 ≤ k → k ≤ n →
      levels k ≠ levels (k - 1) → k + 19 ≤ n) ∧
    (∀ N : Nat, ∃ (levels : Nat → Bool) (fuel n : Nat) (r : Bool),
      checkSwitch levels fuel = some (r, n) ∧ N < n) ∧
    (∀ levels : Nat → Bool, (∀ k, levels (k + 1) ≠ levels k) →
      ∀ fuel, checkSwitch levels fuel = none) := by
  have hexact : ∀ (levels : Nat → Bool) (fuel n : Nat) (r : Bool),
      checkSwitch levels fuel = some (r, n) →
      n = 20 → ∀ k, 1 ≤ k → k ≤ 20 → levels k = levels 1 := by
    intro levels fuel n r h hn k h1 h2
    have hs := checkSwitch_sound levels fuel r n h
    subst hn
    rw [hs.2.2.2 k (by omega) h2, hs.2.2.2 1 (by omega) (by omega)]
  refine ⟨fun levels fuel n r h => ?_, checkSwitch_twenty, fun levels k h1 h2 hne => ?_,
    fun levels fuel n k r h h1 hk hne => checkSwitch_change_bound levels fuel n k r h h1 hk hne,
    checkSwitch_unbounded, checkSwitch_never_of_alternating⟩
  · have hs := checkSwitch_sound levels fuel r n h
    refine ⟨hs.2.1, hexact levels fuel n r h, fun hall => ?_⟩
    have h20 := checkSwitch_twenty levels hall fuel (by omega)
    rw [h20] at h
    simp only [Option.some.injEq, Prod.mk.injEq] at h
    exact h.2.symm
  · cases hc : checkSwitch levels 20 with
    | none => rfl
    | some x =>
      obtain ⟨r, n⟩ := x
      have hs := checkSwitch_sound levels 20 r n hc
      have hall := hexact levels 20 n r hc (by omega)
      exact absurd ((hall k (by omega) h2).trans (hall (k - 1) (by omega) (by omega)).symm) hne

/-- C17 on a pin held HIGH, whose samples 1 to 20 are all equal: the call
returns HIGH after exactly 20 rounds; and on the pin that changes level at
every read it has not returned after any number of rounds. -/
theorem C17_checkSwitch_rounds_witness :
    (∀ k, 1 ≤ k → k ≤ 20 → heldHigh k = heldHigh 1) ∧
    checkSwitch heldHigh 20 = some (true, 20) ∧
    (∀ k, bouncing (k + 1) ≠ bouncing k) ∧
    (∀ fuel, checkSwitch bouncing fuel = none) :=
  ⟨fun _ _ _ => rfl,
    C17_checkSwitch_rounds.2.1 heldHigh (fun _ _ _ => rfl) 20 (le_refl _),
    fun k => by simp only [bouncing, ne_eq, decide_eq_decide]; omega,
    C17_checkSwitch_rounds.2.2.2.2.2 bouncing
      (fun k => by simp only [bouncing, ne_eq, decide_eq_decide]; omega)⟩

/-- C17 fails as stated: on a pin that reads LOW at the initial read and at the
first sample and HIGH from the second sample on, the call has not returned
after 20 rounds and returns after 21; on a pin that changes level at every
read it has not returned after 200 rounds. -/
theorem C17_counterexample_more_than_twenty_rounds :
    checkSwitch riseAtTwo 20 = none ∧
    checkSwitch riseAtTwo 21 = some (true, 21) ∧
    ¬ (21 ≤ 20) ∧
    checkSwitch bouncing 200 = none :=
  ⟨by decide, by decide, by decide, by decide⟩

/-- C18: on every sequence of pin levels that is eventually constant
`checkSwitch` returns (with enough rounds allowed, and the same result with
more); whenever it returns, the returned boolean is the last level read, at
least 20 rounds were taken, and the last 20 levels read are all equal to it;
and if the level never changes during the call it returns after exactly 20
rounds. -/
theorem C18_checkSwitch_returns_stable_level (levels : Nat → Bool) :
    ((∃ N, ∀ k, N ≤ k → levels k = levels N) →
      ∃ (F n : Nat) (r : Bool), ∀ fuel, F ≤ fuel → checkSwitch levels fuel = some (r, n)) ∧
    (∀ (fuel n : Nat) (r : Bool), checkSwitch levels fuel = some (r, n) →
      r = levels n ∧ 20 ≤ n ∧ (∀ j, n < j + 20 → j ≤ n → levels j = r)) ∧
    ((∀ k, k ≤ 20 → levels k = levels 0) →
      ∀ fuel, 20 ≤ fuel → checkSwitch levels fuel = some (levels 0, 20)) := by
  refine ⟨?_, fun fuel n r h => ?_, fun hall fuel hf => ?_⟩
  · rintro ⟨N, hN⟩
    obtain ⟨F, x, hx⟩ := checkSwitchLoop_terminates levels N hN N 0 0 (levels 0) (levels 0)
      (by omega) (by simp [debounceDelay]) rfl
    obtain ⟨r, n⟩ := x
    refine ⟨F, n, r, fun fuel hf => ?_⟩
    obtain ⟨d, rfl⟩ : ∃ d, fuel = F + d := ⟨fuel - F, by omega⟩
    exact checkSwitch_mono levels F d r n ((checkSwitch_eq_some levels F r n).2 hx)
  · have hs := checkSwitch_sound levels fuel r n h
    exact ⟨hs.1, hs.2.1, hs.2.2.2⟩
  · have h1 : levels 1 = levels 0 := hall 1 (by omega)
    rw [← h1]
    exact checkSwitch_twenty levels (fun k _ hk => by rw [hall k hk, h1]) fuel hf

/-- C18 on the pin that rises at the second sample: it is constant from the
second read on, and the call returns HIGH after 21 rounds, the reads 2 to 21
being HIGH. -/
theorem C18_checkSwitch_returns_stable_level_witness :
    (∃ N, ∀ k, N ≤ k → riseAtTwo k = riseAtTwo N) ∧
    checkSwitch riseAtTwo 21 = some (true, 21) ∧
    (true = riseAtTwo 21 ∧ 20 ≤ 21 ∧ ∀ j, 21 < j + 20 → j ≤ 21 → riseAtTwo j = true) ∧
    ∃ (F n : Nat) (r : Bool), ∀ fuel, F ≤ fuel → checkSwitch riseAtTwo fuel = some (r, n) :=
  ⟨⟨2, fun k hk => by simp [riseAtTwo, hk]⟩, by decide,
    (C18_checkSwitch_returns_stable_level riseAtTwo).2.1 21 21 true (by decide),
    (C18_checkSwitch_returns_stable_level riseAtTwo).1
      ⟨2, fun k hk => by simp [riseAtTwo, hk]⟩⟩

/-! ## C20: locked out at power-on -/

theorem not_actuates_of_locked (s : State) (i : PassInput)
    (h : i.tLockout ≤ addU32 s.lastPuffTime PUFF_LOCKOUT_TIME) : actuates s i = false := by
  rw [actuates_eq_false_iff, ← Bool.not_eq_true, puffDue_sensed_iff]
  omega

theorem no_puff_while_locked (t : Nat) (is : List PassInput) :
    ∀ s : State, s.lastPuffTime = t →
      (∀ i ∈ is, i.tLockout ≤ addU32 t PUFF_LOCKOUT_TIME) →
      puffStarts s is = [] ∧ (run s is).lastPuffTime = t ∧ relayOn ∉ trace s is := by
  induction is with
  | nil => intro s hs _; exact ⟨rfl, hs, by simp [trace]⟩
  | cons i is ih =>
    intro s hs hall
    have hna : actuates s i = false :=
      not_actuates_of_locked s i (by rw [hs]; exact hall i (List.mem_cons_self _ _))
    have hnext : (loop s i).1.lastPuffTime = t := by
      rw [lastPuffTime_of_not_actuates s i hna, hs]
    obtain ⟨h1, h2, h3⟩ := ih (loop s i).1 hnext (fun j hj => hall j (List.mem_cons_of_mem _ hj))
    refine ⟨by simp only [puffStarts, hna, Bool.false_eq_true, if_false]; exact h1, h2, ?_⟩
    have hr : relayOn ∉ (loop s i).2 := by
      simpa [actuates] using hna
    simp only [trace, List.mem_append, not_or]
    exact ⟨hr, h3⟩

/-- C20: at power-on `lastPuffTime` holds the start-up clock value although no
actuation has happened, and no pass whose lockout reading is at most that
value plus `PUFF_LOCKOUT_TIME` (the sum as line 151 forms it, which is the
plain sum whenever it stays in the 32-bit range, as it does for a clock value
read at start-up) energises the relay, whatever the switch level, the distance
and the potentiometer: in an execution from power-on made of such passes there
is no actuation and `lastPuffTime` keeps the start-up value. -/
theorem C20_locked_out_at_power_on (t0 t1 t2 t3 : Nat) :
    (powerOn t0 t1 t2 t3).lastPuffTime = t3 ∧
    (∀ i : PassInput, i.tLockout ≤ addU32 t3 PUFF_LOCKOUT_TIME →
      relayOn ∉ (loop (powerOn t0 t1 t2 t3) i).2) ∧
    (∀ is : List PassInput, (∀ i ∈ is, i.tLockout ≤ addU32 t3 PUFF_LOCKOUT_TIME) →
      puffStarts (powerOn t0 t1 t2 t3) is = [] ∧
      (run (powerOn t0 t1 t2 t3) is).lastPuffTime = t3 ∧
      relayOn ∉ trace (powerOn t0 t1 t2 t3) is) ∧
    (t3 + PUFF_LOCKOUT_TIME < ULONG →
      ∀ is : List PassInput, (∀ i ∈ is, i.tLockout ≤ t3 + PUFF_LOCKOUT_TIME) →
        puffStarts (powerOn t0 t1 t2 t3) is = [] ∧
        relayOn ∉ trace (powerOn t0 t1 t2 t3) is) := by
  refine ⟨rfl, fun i hi => ?_, fun is his => no_puff_while_locked t3 is _ rfl his,
    fun hlt is his => ?_⟩
  · have := not_actuates_of_locked (powerOn t0 t1 t2 t3) i hi
    simpa [actuates] using this
  · have := no_puff_while_locked t3 is (powerOn t0 t1 t2 t3) rfl
      (by rw [addU32_of_lt _ _ hlt]; exact his)
    exact ⟨this.1, this.2.2⟩

/-- C20 from a start-up at clock 0: an armed pass at 5000 ms with a fresh
reading of 80 mm against a near threshold of 100 does not actuate, while the
same pass at 5001 ms does. -/
theorem C20_locked_out_at_power_on_witness :
    (0 : Nat) + PUFF_LOCKOUT_TIME < ULONG ∧
    (∀ i ∈ [passAt true 200 0 80 2000, passAt true 200 0 80 5000],
      i.tLockout ≤ 0 + PUFF_LOCKOUT_TIME) ∧
    relayOn ∉ trace (powerOn 0 0 0 0) [passAt true 200 0 80 2000, passAt true 200 0 80 5000] ∧
    relayOn ∈ (loop (powerOn 0 0 0 0) (passAt true 200 0 80 5001)).2 :=
  ⟨by decide, by decide,
    ((C20_locked_out_at_power_on 0 0 0 0).2.2.2 (by decide)
      [passAt true 200 0 80 2000, passAt true 200 0 80 5000] (by decide)).2,
    by decide⟩

/-! ## C19: the pass that spends the last puff -/

theorem loop_flasher_of_not_exhausted (s : State) (i : PassInput)
    (h : (loop s i).1.outOfAir = false) :
    (loop s i).1.outOfAirFlasherLastCheck = s.outOfAirFlasherLastCheck := by
  obtain ⟨_, h2, _, h4⟩ := flash_state s i
  rw [h] at h4
  have hbo := (statusStep_frame (puffStep (sensed s i) i).1 i).2.2.1
  have hblue : blueStep (statusStep (puffStep (sensed s i) i).1 i).1 i =
      ((statusStep (puffStep (sensed s i) i).1 i).1, []) := by
    simp [blueStep, hbo, h4]
  have hl : (loop s i).1 = (blueStep (statusStep (puffStep (sensed s i) i).1 i).1 i).1 := rfl
  rw [hl, hblue, statusStep_flasher, h2]

/-- Until `outOfAir` is set, `outOfAirFlasherLastCheck` keeps the value it had
at the start of the execution. -/
theorem flasher_run_of_not_exhausted (is : List PassInput) :
    ∀ s : State, (run s is).outOfAir = false →
      (run s is).outOfAirFlasherLastCheck = s.outOfAirFlasherLastCheck := by
  induction is with
  | nil => intro s _; rfl
  | cons i is ih =>
    intro s h
    have h1 : (run (loop s i).1 is).outOfAir = false := h
    have h2 : (loop s i).1.outOfAir = false := by
      cases hc : (loop s i).1.outOfAir
      · rfl
      · rw [outOfAir_run_of_outOfAir is _ hc] at h1
        cases h1
    show (run (loop s i).1 is).outOfAirFlasherLastCheck = _
    rw [ih _ h1, loop_flasher_of_not_exhausted s i h2]

theorem tLockout_le_tBlue (i : PassInput) (h : (readings i).Pairwise (· ≤ ·)) :
    i.tLockout ≤ i.tBlue := by
  simp only [readings, List.pairwise_cons] at h
  exact h.2.2.1 _ (by simp)

/-- With `lastPuffTime + PUFF_LOCKOUT_TIME` in range at the start of an
execution with non-decreasing readings, every actuating pass has its lockout
reading above that sum. -/
theorem lockout_reading_after_start (i : PassInput) (is : List PassInput) :
    ∀ s : State, s.lastPuffTime + PUFF_LOCKOUT_TIME < ULONG →
      (clock (is ++ [i])).Pairwise (· ≤ ·) →
      actuates (run s is) i = true →
      s.lastPuffTime + PUFF_LOCKOUT_TIME < i.tLockout := by
  induction is with
  | nil =>
    intro s h0 _ ha
    have := lockout_of_actuates s i ha
    rwa [addU32_of_lt _ _ h0] at this
  | cons j js ih =>
    intro s h0 hs ha
    rw [List.cons_append, clock_cons, List.pairwise_append] at hs
    have ha2 : actuates (run (loop s j).1 js) i = true := ha
    by_cases hj : actuates s j = true
    · have hl := lockout_of_actuates s j hj
      rw [addU32_of_lt _ _ h0] at hl
      have hmem : i.tLockout ∈ clock (js ++ [i]) := by
        simp [clock, readings]
      have := hs.2.2 j.tLockout (by simp [readings]) _ hmem
      omega
    · have hj : actuates s j = false := by simpa using hj
      have hp := lastPuffTime_of_not_actuates s j hj
      have := ih (loop s j).1 (by rw [hp]; exact h0) hs.2.1 ha2
      rwa [hp] at this

theorem readings_pairwise_of_clock (is : List PassInput) (i : PassInput)
    (h : (clock (is ++ [i])).Pairwise (· ≤ ·)) : (readings i).Pairwise (· ≤ ·) := by
  induction is with
  | nil => simpa [clock] using h
  | cons j js ih =>
    rw [List.cons_append, clock_cons, List.pairwise_append] at h
    exact ih h.2.1

/-- C19: in an execution from power-on whose clock readings, the start-up ones
included, are non-decreasing and below `2 ^ 32`, the start-up value of
`lastPuffTime` lying at least `PUFF_LOCKOUT_TIME` below `2 ^ 32` (the clock
starts at reset), the pass that performs the 15th actuation sets `outOfAir`
and lights BLUE, and only BLUE, in that same pass: `outOfAirFlasherLastCheck`
still holds its start-up value, which lies more than `PUFF_LOCKOUT_TIME`, so
more than `OUT_OF_AIR_FLASH_INTERVAL`, before the lockout reading of the
pass. -/
theorem C19_blue_flash_in_exhausting_pass (t0 t1 t2 t3 : Nat) (is : List PassInput)
    (i : PassInput)
    (hmono : ([t0, t1, t2, t3] ++ clock (is ++ [i])).Pairwise (· ≤ ·))
    (hrange : ∀ t ∈ clock (is ++ [i]), t < ULONG)
    (hstart : t3 + PUFF_LOCKOUT_TIME < ULONG)
    (h14 : (puffStarts (powerOn t0 t1 t2 t3) is).length = 14)
    (hact : actuates (run (powerOn t0 t1 t2 t3) is) i = true) :
    (run (powerOn t0 t1 t2 t3) is).outOfAir = false ∧
    (loop (run (powerOn t0 t1 t2 t3) is) i).1.puffsSoFar = MAX_PUFFS ∧
    (loop (run (powerOn t0 t1 t2 t3) is) i).1.outOfAir = true ∧
    (run (powerOn t0 t1 t2 t3) is).outOfAirFlasherLastCheck = t1 ∧
    t1 + PUFF_LOCKOUT_TIME < i.tLockout ∧
    t1 + OUT_OF_AIR_FLASH_INTERVAL < i.tBlue ∧
    litColours (loop (run (powerOn t0 t1 t2 t3) is) i).2 = [colorEnum.BLUE] ∧
    colorEnum.RED ∉ litColours (loop (run (powerOn t0 t1 t2 t3) is) i).2 ∧
    colorEnum.GREEN ∉ litColours (loop (run (powerOn t0 t1 t2 t3) is) i).2 := by
  have hinv := budgetInv_run is _ (budgetInv_powerOn t0 t1 t2 t3)
  have hlen := puffsSoFar_run is (powerOn t0 t1 t2 t3)
  rw [h14] at hlen
  have hp14 : (run (powerOn t0 t1 t2 t3) is).puffsSoFar = 14 := by
    simpa [powerOn] using hlen
  have hfalse : (run (powerOn t0 t1 t2 t3) is).outOfAir = false := by
    cases hc : (run (powerOn t0 t1 t2 t3) is).outOfAir
    · rfl
    · have := hinv.2.1 hc
      rw [hp14] at this
      simp [MAX_PUFFS] at this
  have hflash : (run (powerOn t0 t1 t2 t3) is).outOfAirFlasherLastCheck = t1 :=
    flasher_run_of_not_exhausted is _ hfalse
  obtain ⟨_, hb2, hb3⟩ := budget_of_actuates _ i hact
  rw [hp14] at hb2 hb3
  have hout : (loop (run (powerOn t0 t1 t2 t3) is) i).1.outOfAir = true := by
    rw [hb3]
    simp [MAX_PUFFS]
  rw [List.pairwise_append] at hmono
  have h13 : t1 ≤ t3 := by
    have := hmono.1
    simp only [List.pairwise_cons] at this
    exact this.2.1 t3 (by simp)
  have hlock := lockout_reading_after_start i is (powerOn t0 t1 t2 t3) hstart hmono.2.1 hact
  have hlock3 : t3 + PUFF_LOCKOUT_TIME < i.tLockout := hlock
  have hlb := tLockout_le_tBlue i (readings_pairwise_of_clock is i hmono.2.1)
  have hblue : i.tBlue < ULONG := hrange _ (by simp [clock, readings])
  have hpast : t1 + OUT_OF_AIR_FLASH_INTERVAL < i.tBlue := by
    simp only [PUFF_LOCKOUT_TIME, OUT_OF_AIR_FLASH_INTERVAL] at hlock3 ⊢
    omega
  have hlit : litColours (loop (run (powerOn t0 t1 t2 t3) is) i).2 = [colorEnum.BLUE] := by
    rw [litColours_loop, hout, hflash, addU32_of_lt _ _ (by omega)]
    simp [le_of_lt hpast]
  refine ⟨hfalse, by rw [hb2]; rfl, hout, hflash, by omega, hpast, hlit, ?_, ?_⟩ <;>
    rw [hlit] <;> simp

/-- C19 from a start-up at clock 0: after fourteen timed actuations 6000 ms
apart, the pass starting at 90000 ms performs the fifteenth, sets `outOfAir`
and lights BLUE and only BLUE. -/
theorem C19_blue_flash_in_exhausting_pass_witness :
    ([0, 0, 0, 0] ++ clock (fourteenPuffs ++ [puffPass 90000])).Pairwise (· ≤ ·) ∧
    (∀ t ∈ clock (fourteenPuffs ++ [puffPass 90000]), t < ULONG) ∧
    0 + PUFF_LOCKOUT_TIME < ULONG ∧
    (puffStarts (powerOn 0 0 0 0) fourteenPuffs).length = 14 ∧
    actuates (run (powerOn 0 0 0 0) fourteenPuffs) (puffPass 90000) = true ∧
    (loop (run (powerOn 0 0 0 0) fourteenPuffs) (puffPass 90000)).1.outOfAir = true ∧
    litColours (loop (run (powerOn 0 0 0 0) fourteenPuffs) (puffPass 90000)).2 =
      [colorEnum.BLUE] :=
  ⟨by decide, by decide, by decide, by decide, by decide,
    (C19_blue_flash_in_exhausting_pass 0 0 0 0 fourteenPuffs (puffPass 90000)
      (by decide) (by decide) (by decide) (by decide) (by decide)).2.2.1,
    (C19_blue_flash_in_exhausting_pass 0 0 0 0 fourteenPuffs (puffPass 90000)
      (by decide) (by decide) (by decide) (by decide) (by decide)).2.2.2.2.2.2.1⟩

/-- C16 on a GREEN flash entered with all three channels lit: after the three
channel writes only GREEN is on, and on return all channels are at zero. -/
theorem C16_flashLED_single_channel_witness :
    ledRun { r := 7, g := 9, b := 3 } ((flashLED colorEnum.GREEN 128 200).take 3) =
      onlyLit colorEnum.GREEN 128 ∧
    ledRun { r := 7, g := 9, b := 3 } (flashLED colorEnum.GREEN 128 200) = ledOff ∧
    (∀ l ∈ ledStates ledOff (flashLED colorEnum.GREEN 128 200), atMostOneLit l) :=
  ⟨(C16_flashLED_single_channel colorEnum.GREEN 128 200).2.2.1 _,
    (C16_flashLED_single_channel colorEnum.GREEN 128 200).2.2.2.2.1 _,
    (C16_flashLED_single_channel colorEnum.GREEN 128 200).2.2.2.2.2.1⟩

end AirPuffer
